import Mathlib

set_option maxRecDepth 100000

/-!
Shallow embedding of the `ObjectTracker` vehicle-tracking engine from the
repository's tracking service, over exact rational arithmetic.

The source mutates a list of tracks and annotates the incoming detection
list in place; here the engine is a pure function from
`TrackerState × List DetectionItem × timestamp` to
`TrackerState × List DetectionItem`.  JS numbers are modelled by `ℚ`
(all the constants of the source are decimal and representable exactly);
`Math.floor` is `Int.floor`, `Math.sign` is `signQ`, `Math.max(0, n-1)`
on a counter is truncated `ℕ` subtraction.  The only irrational quantity
in the source, `Math.sqrt` inside the centroid-distance score, is
embedded symbolically: the squared distance is carried in a `Score`
value and every comparison the source performs on the real-valued score
is translated to the exactly equivalent rational comparison on the
square (all squared distances are sums of squares, hence nonnegative).
-/

namespace ObjectTracker

/-- Bounding box in source order `[ymin, xmin, ymax, xmax]` (0–1000 space). -/
structure Box where
  ymin : ℚ
  xmin : ℚ
  ymax : ℚ
  xmax : ℚ
  deriving DecidableEq, Inhabited

/-- Lane status enumeration (source strings 'Stable' / 'Lane Change' / 'Merging'). -/
inductive LaneStatus where
  | stable
  | laneChange
  | merging
  deriving DecidableEq, Inhabited

/-- One detection, with the tracking fields the engine may set on output.
`isSpeeding`/`isWrongWay` are only ever set to `true` by the source, so they
are Booleans that the engine can only raise. -/
structure DetectionItem where
  object : String
  type : String
  box_2d : Option Box
  trackId : Option ℕ := none
  estimatedSpeed : Option ℤ := none
  laneEvent : Option LaneStatus := none
  speedHistory : Option (List ℚ) := none
  isSpeeding : Bool := false
  isWrongWay : Bool := false
  deriving DecidableEq, Inhabited

/-- Kalman filter state (position `y`, velocity `v`, covariance entries). -/
structure KalmanState where
  y : ℚ
  v : ℚ
  p11 : ℚ
  p12 : ℚ
  p21 : ℚ
  p22 : ℚ
  deriving DecidableEq, Inhabited

/-- Internal track record.  `cls` is the source's `class` field
(a Lean keyword). -/
structure TrackedObject where
  id : ℕ
  cls : String
  box : Box
  centroid : ℚ × ℚ
  avgHeight : ℚ
  laneHistory : List ℚ
  speedHistory : List ℚ
  missingFrames : ℕ
  speed : ℤ
  velocity : ℚ
  laneStatus : LaneStatus
  createdAt : ℚ
  updatedAt : ℚ
  wrongWayFrames : ℕ
  speedingFrames : ℕ
  kalman : KalmanState
  deriving DecidableEq, Inhabited

/-- Engine state: the live track list and the next fresh identifier. -/
structure TrackerState where
  tracks : List TrackedObject
  nextId : ℕ
  deriving DecidableEq, Inhabited

-- Tracking parameters (source constants).
def maxMissingFrames : ℕ := 5
def iouThreshold : ℚ := 0.25
def centroidDistanceThreshold : ℚ := 0.15

-- Violation thresholds.
def SPEED_LIMIT_DEFAULT : ℤ := 80
def SPEED_LIMIT_HEAVY : ℤ := 60
def SPEED_LIMIT_LIGHT : ℤ := 50

-- Kalman filter tuning.
def R : ℚ := 0.005
def Q_pos : ℚ := 0.001
def Q_vel : ℚ := 0.8

/-- `Math.sign`. -/
def signQ (q : ℚ) : ℚ := if 0 < q then 1 else if q < 0 then -1 else 0

/-- JavaScript `Array.prototype.slice(-n)`: the last `n` elements. -/
def lastN (n : ℕ) (l : List α) : List α := l.drop (l.length - n)

/-- `Math.max(...l)` for the nonempty lists the source applies it to. -/
def listMax : List ℚ → ℚ
  | [] => 0
  | x :: xs => xs.foldl max x

/-- `Math.min(...l)` for the nonempty lists the source applies it to. -/
def listMin : List ℚ → ℚ
  | [] => 0
  | x :: xs => xs.foldl min x

/-- Arithmetic mean (the source divides by the length of a nonempty list). -/
def meanQ (l : List ℚ) : ℚ := l.sum / l.length

/-- Is `pat` an infix of `l`? -/
def listInfix [DecidableEq α] (pat : List α) : List α → Bool
  | [] => decide (pat = [])
  | a :: rest => pat.isPrefixOf (a :: rest) || listInfix pat rest

/-- `t.includes(k)` on strings. -/
def strContains (t k : String) : Bool := listInfix k.toList t.toList

/-- `s.toLowerCase()` (per character, as `String.map Char.toLower` does,
but written on the underlying character list so it evaluates). -/
def lowerStr (s : String) : String := ⟨s.data.map Char.toLower⟩

/-- The `REFERENCE_LENGTHS_METERS` table, in the source's key-insertion
order (a JS `for..in` over a string-keyed record visits keys in that order). -/
def REFERENCE_LENGTHS_METERS : List (String × ℚ) :=
  [("car", 4.5), ("taxi", 4.5), ("suv", 4.8), ("van", 5.2), ("truck", 12.0),
   ("lorry", 12.0), ("bus", 12.0), ("pickup", 5.2), ("motorcycle", 2.2),
   ("bike", 1.8), ("bicycle", 1.8), ("person", 0.5), ("pedestrian", 0.5),
   ("human", 0.5), ("default", 4.5)]

/-- First table entry whose key is a substring of `t`; falls back to 4.5. -/
def lookupRefLength (t : String) : List (String × ℚ) → ℚ
  | [] => 4.5
  | (k, v) :: rest => if strContains t k then v else lookupRefLength t rest

/-- `getReferenceLength`. -/
def getReferenceLength (type_ : String) : ℚ :=
  lookupRefLength (lowerStr type_) REFERENCE_LENGTHS_METERS

/-- Per-class speed limit selection from `checkViolations`. -/
def speedLimitFor (cls : String) : ℤ :=
  let t := lowerStr cls
  if strContains t "bus" || strContains t "truck" || strContains t "lorry" then
    SPEED_LIMIT_HEAVY
  else if strContains t "rickshaw" || strContains t "auto" || strContains t "bike" then
    SPEED_LIMIT_LIGHT
  else
    SPEED_LIMIT_DEFAULT

/-- `getCentroid`: returns `[x, y]` in 0–1 units. -/
def getCentroid (box : Box) : ℚ × ℚ :=
  ((box.xmin + box.xmax) / 2 / 1000, (box.ymin + box.ymax) / 2 / 1000)

/-- `calculateIoU`, exactly as in the source. -/
def calculateIoU (boxA boxB : Box) : ℚ :=
  let yA := max boxA.ymin boxB.ymin
  let xA := max boxA.xmin boxB.xmin
  let yB := min boxA.ymax boxB.ymax
  let xB := min boxA.xmax boxB.xmax
  let interArea := max 0 (xB - xA) * max 0 (yB - yA)
  let boxAArea := (boxA.ymax - boxA.ymin) * (boxA.xmax - boxA.xmin)
  let boxBArea := (boxB.ymax - boxB.ymin) * (boxB.xmax - boxB.xmin)
  if boxAArea + boxBArea - interArea = 0 then 0
  else interArea / (boxAArea + boxBArea - interArea)

/-- `initKalman`. -/
def initKalman (y : ℚ) : KalmanState :=
  { y := y, v := 0, p11 := 1, p12 := 0, p21 := 0, p22 := 1 }

/-- `updateKalman`, exactly as in the source (predict with
`F = [[1,dt],[0,1]]` and `Q = diag(Q_pos·dt, Q_vel·dt)`, then the scalar
measurement update). -/
def updateKalman (state : KalmanState) (measurement dt : ℚ) : KalmanState :=
  let pred_y := state.y + state.v * dt
  let pred_v := state.v
  let dt2 := dt * dt
  let pp11 := state.p11 + dt * (state.p12 + state.p21) + dt2 * state.p22 + Q_pos * dt
  let pp12 := state.p12 + dt * state.p22
  let pp21 := state.p21 + dt * state.p22
  let pp22 := state.p22 + Q_vel * dt
  let y_innov := measurement - pred_y
  let s := pp11 + R
  let k1 := pp11 / s
  let k2 := pp21 / s
  { y := pred_y + k1 * y_innov
    v := pred_v + k2 * y_innov
    p11 := (1 - k1) * pp11
    p12 := (1 - k1) * pp12
    p21 := -k2 * pp11 + pp21
    p22 := -k2 * pp12 + pp22 }

/-!
### Association scores

The source keeps `bestScore : number`, initially `-1`, which is either an
IoU value or a centroid-distance score `(1 - Math.sqrt(sq)) * 0.5`.
`Score` carries the squared distance `sq` instead of the irrational
score; `gtIoU` and `gtDist` decide exactly the real-number comparisons
the source performs (`sq ≥ 0` always holds, being a sum of squares):

* `q > -1                    ↔  -1 < q`
* `q > (1-√sq)/2             ↔  1 - 2q < 0 ∨ (1-2q)² < sq`
* `(1-√sq)/2 > -1            ↔  sq < 9`
* `(1-√sq)/2 > q             ↔  0 < 1 - 2q ∧ sq < (1-2q)²`
* `(1-√sq)/2 > (1-√sq')/2    ↔  sq < sq'`
* `√sq < 0.15                ↔  sq < 0.15²`
-/

inductive Score where
  | noScore
  | iouScore (q : ℚ)
  | distScore (sq : ℚ)
  deriving DecidableEq, Inhabited

/-- Does IoU value `q` exceed the given score (source `iou > bestScore`)? -/
def gtIoU (q : ℚ) : Score → Bool
  | .noScore => decide (-1 < q)
  | .iouScore p => decide (p < q)
  | .distScore sq => decide (1 - 2 * q < 0) || decide ((1 - 2 * q) ^ 2 < sq)

/-- Does the distance score for squared distance `sq` exceed the given
score (source `score > bestScore`)? -/
def gtDist (sq : ℚ) : Score → Bool
  | .noScore => decide (sq < 9)
  | .iouScore p => decide (0 < 1 - 2 * p) && decide (sq < (1 - 2 * p) ^ 2)
  | .distScore sq2 => decide (sq < sq2)

/-- Candidate-selection state of the inner detection loop
(`bestMatchIndex` / `bestScore`; `bestIdx = none` encodes `-1`). -/
structure ScanState where
  bestIdx : Option ℕ
  bestScore : Score
  deriving DecidableEq, Inhabited

/-- Priority 1 of the inner loop: adopt detection `idx` as an IoU
candidate when its IoU beats the threshold and the current best score. -/
def tryIoU (iou : ℚ) (idx : ℕ) (st : ScanState) : ScanState :=
  if decide (iouThreshold < iou) && gtIoU iou st.bestScore then
    ⟨some idx, .iouScore iou⟩
  else st

/-- Priority 2 of the inner loop: only while `bestMatchIndex === -1`,
adopt detection `idx` as a distance candidate when its centroid distance
is below the threshold and its score beats the current best score
(`sq` is the squared distance). -/
def tryDist (sq : ℚ) (idx : ℕ) (st : ScanState) : ScanState :=
  match st.bestIdx with
  | some _ => st
  | none =>
    if decide (sq < centroidDistanceThreshold ^ 2) && gtDist sq st.bestScore then
      ⟨some idx, .distScore sq⟩
    else st

/-- Squared centroid distance between a detection box and a track. -/
def sqDist (track : TrackedObject) (b : Box) : ℚ :=
  ((getCentroid b).1 - track.centroid.1) ^ 2 + ((getCentroid b).2 - track.centroid.2) ^ 2

/-- The body of the inner `validDetections.forEach` loop for one track:
skip claimed or box-less detections; try IoU (threshold 0.25), then,
only while no candidate has been selected at all, the centroid-distance
fallback (threshold 0.15). -/
def scanStep (track : TrackedObject) (unmatched : List ℕ) (st : ScanState)
    (p : ℕ × DetectionItem) : ScanState :=
  if ¬ unmatched.contains p.1 then st else
  match p.2.box_2d with
  | none => st
  | some b => tryDist (sqDist track b) p.1 (tryIoU (calculateIoU track.box b) p.1 st)

/-- Attach frame indices `0, 1, 2, …` to a list. -/
def withIdx : ℕ → List α → List (ℕ × α)
  | _, [] => []
  | i, a :: rest => (i, a) :: withIdx (i + 1) rest

/-- The full inner loop: the detection index this track claims, if any. -/
def scanDets (track : TrackedObject) (unmatched : List ℕ)
    (vdets : List DetectionItem) : Option ℕ :=
  ((withIdx 0 vdets).foldl (scanStep track unmatched) ⟨none, .noScore⟩).bestIdx

/-- `updateLaneStatus` (reads the already-pushed lane history). -/
def updateLaneStatus (laneHistory : List ℚ) (current : LaneStatus) : LaneStatus :=
  if laneHistory.length < 5 then current
  else
    let recent := lastN 5 laneHistory
    if 0.05 < listMax recent - listMin recent then .laneChange else .stable

/-- Everything the source does to a matched track (Kalman update, height
smoothing, calibrated speed, history buffers, lane status). -/
def applyMatch (track : TrackedObject) (det : DetectionItem) (timestamp : ℚ) :
    TrackedObject :=
  let b := det.box_2d.getD default
  let dt := (timestamp - track.updatedAt) / 1000
  let newCentroid := getCentroid b
  let currentHeight := (b.ymax - b.ymin) / 1000
  let kal := if (0.001 : ℚ) < dt then updateKalman track.kalman newCentroid.2 dt
             else { track.kalman with y := newCentroid.2 }
  let avgH := track.avgHeight * 0.9 + currentHeight * 0.1
  let v_norm_per_sec := kal.v
  let refLength := getReferenceLength track.cls
  let safeHeight := max avgH 0.02
  let perspectiveCorrection := 1.2 + (1 - newCentroid.2) * 0.8
  let speedMps0 := (|v_norm_per_sec| / safeHeight) * refLength * perspectiveCorrection
  let speedMps := if speedMps0 < 0.8 then 0 else speedMps0
  let hist1 := track.speedHistory ++ [speedMps * 3.6]
  let hist := if 20 < hist1.length then hist1.drop 1 else hist1
  let avgSpeed := meanQ (lastN 5 hist)
  let lane1 := track.laneHistory ++ [newCentroid.1]
  let lane := if 10 < lane1.length then lane1.drop 1 else lane1
  { track with
    missingFrames := 0
    updatedAt := timestamp
    box := b
    centroid := newCentroid
    avgHeight := avgH
    kalman := kal
    speedHistory := hist
    speed := ⌊avgSpeed⌋
    velocity := avgSpeed * signQ v_norm_per_sec
    laneHistory := lane
    laneStatus := updateLaneStatus lane track.laneStatus }

/-- Copy track data onto the matched detection (source `// Sync to Detection`). -/
def annotate (det : DetectionItem) (track : TrackedObject) : DetectionItem :=
  { det with trackId := some track.id
             estimatedSpeed := some track.speed
             laneEvent := some track.laneStatus
             speedHistory := some track.speedHistory }

/-- The outer `this.tracks.forEach` matching loop.  Returns the updated
tracks (position-aligned with the input), the annotated detections, the
surviving unclaimed indices, and, per track, the detection index it
claimed (if any). -/
def matchTracks (timestamp : ℚ) :
    List TrackedObject → List DetectionItem → List ℕ →
    List TrackedObject × List DetectionItem × List ℕ × List (Option ℕ)
  | [], vdets, unmatched => ([], vdets, unmatched, [])
  | track :: rest, vdets, unmatched =>
    match scanDets track unmatched vdets with
    | none =>
      let r := matchTracks timestamp rest vdets unmatched
      (track :: r.1, r.2.1, r.2.2.1, none :: r.2.2.2)
    | some j =>
      let det := vdets.getD j default
      let track' := applyMatch track det timestamp
      let vdets' := vdets.set j (annotate det track')
      let r := matchTracks timestamp rest vdets' (unmatched.erase j)
      (track' :: r.1, r.2.1, r.2.2.1, some j :: r.2.2.2)

/-- A freshly created track (source `// 3. Creation Step`). -/
def newTrack (nid : ℕ) (det : DetectionItem) (b : Box) (timestamp : ℚ) :
    TrackedObject :=
  let c := getCentroid b
  { id := nid
    cls := det.object
    box := b
    centroid := c
    avgHeight := (b.ymax - b.ymin) / 1000
    laneHistory := [c.1]
    speedHistory := [0]
    missingFrames := 0
    speed := 0
    velocity := 0
    laneStatus := .stable
    createdAt := timestamp
    updatedAt := timestamp
    wrongWayFrames := 0
    speedingFrames := 0
    kalman := initKalman c.2 }

/-- The annotation written onto a detection that spawns a new track. -/
def createAnnotate (det : DetectionItem) (nid : ℕ) : DetectionItem :=
  { det with trackId := some nid
             estimatedSpeed := some 0
             laneEvent := some LaneStatus.stable
             speedHistory := some [0] }

/-- Create a track for every unclaimed valid detection, threading the
fresh-identifier counter, and annotate those detections. -/
def createTracks (timestamp : ℚ) :
    ℕ → List ℕ → List DetectionItem → ℕ × List TrackedObject × List DetectionItem
  | nid, [], vdets => (nid, [], vdets)
  | nid, j :: rest, vdets =>
    let det := vdets.getD j default
    match det.box_2d with
    | none => createTracks timestamp nid rest vdets
    | some b =>
      let t := newTrack nid det b timestamp
      let vdets' := vdets.set j (createAnnotate det t.id)
      let r := createTracks timestamp (nid + 1) rest vdets'
      (r.1, t :: r.2.1, r.2.2)

/-- Dominant flow direction: mean signed velocity of tracks with
displayed speed above 5 km/h, 0 when there are none. -/
def flowDirOf (tracks : List TrackedObject) : ℚ :=
  let movingTracks := tracks.filter fun t => decide (5 < t.speed)
  if movingTracks.length = 0 then 0
  else (movingTracks.map fun t => t.velocity).sum / movingTracks.length

/-- The per-track body of the `checkViolations` detection loop: speeding
counter update and flag, then the wrong-way guard/counter and flag.
Returns the updated track and the two flags to raise. -/
def violationApply (flowDir : ℚ) (track : TrackedObject) :
    TrackedObject × Bool × Bool :=
  let limit := speedLimitFor track.cls
  let t1 := if limit < track.speed then
              { track with speedingFrames := track.speedingFrames + 1 }
            else
              { track with speedingFrames := track.speedingFrames - 1 }
  let sFlag : Bool := decide (3 ≤ t1.speedingFrames)
  let t2 := if 10 < |flowDir| ∧ 10 < t1.speed then
              (if signQ t1.velocity ≠ signQ flowDir then
                 { t1 with wrongWayFrames := t1.wrongWayFrames + 1 }
               else
                 { t1 with wrongWayFrames := 0 })
            else t1
  let wFlag : Bool := decide (4 ≤ t2.wrongWayFrames)
  (t2, sFlag, wFlag)

/-- `this.tracks.find(t => t.id === id)` followed by in-place mutation:
apply `violationApply` to the first track with the given id.  Returns
the tracks, whether a track was found, and the two flags. -/
def findAndApply (flowDir : ℚ) (tid : ℕ) :
    List TrackedObject → List TrackedObject × Bool × Bool × Bool
  | [] => ([], false, false, false)
  | t :: rest =>
    if t.id = tid then
      let r := violationApply flowDir t
      (r.1 :: rest, true, r.2.1, r.2.2)
    else
      let r := findAndApply flowDir tid rest
      (t :: r.1, r.2.1, r.2.2.1, r.2.2.2)

/-- The `detections.forEach` loop of `checkViolations`: detections with a
falsy `trackId` (absent, or 0) are skipped, as are ids with no live track. -/
def violationGo (flowDir : ℚ) :
    List DetectionItem → List TrackedObject → List TrackedObject × List DetectionItem
  | [], tracks => (tracks, [])
  | d :: rest, tracks =>
    if d.trackId.getD 0 = 0 then
      let r := violationGo flowDir rest tracks
      (r.1, d :: r.2)
    else
      let f := findAndApply flowDir (d.trackId.getD 0) tracks
      if f.2.1 then
        let d' := { d with isSpeeding := d.isSpeeding || f.2.2.1
                           isWrongWay := d.isWrongWay || f.2.2.2 }
        let r := violationGo flowDir rest f.1
        (r.1, d' :: r.2)
      else
        let r := violationGo flowDir rest tracks
        (r.1, d :: r.2)

/-- `checkViolations`: compute the dominant flow once, then run the
detection loop. -/
def checkViolations (tracks : List TrackedObject) (detections : List DetectionItem) :
    List TrackedObject × List DetectionItem :=
  violationGo (flowDirOf tracks) detections tracks

/-- The validity filter of `update`:
`detections.filter(d => d.box_2d && d.type === 'vehicle')`. -/
def isValidDet (d : DetectionItem) : Bool := d.box_2d.isSome && d.type == "vehicle"

/-- The valid detections paired with their index in the original list. -/
def validEnum : ℕ → List DetectionItem → List (ℕ × DetectionItem)
  | _, [] => []
  | i, d :: rest =>
    if isValidDet d then (i, d) :: validEnum (i + 1) rest else validEnum (i + 1) rest

def validIdxOf (detections : List DetectionItem) : List ℕ :=
  (validEnum 0 detections).map fun p => p.1

def validDetsOf (detections : List DetectionItem) : List DetectionItem :=
  (validEnum 0 detections).map fun p => p.2

/-- Step 1+2 of `update`: age every track, then run the greedy matching. -/
def matchPhase (st : TrackerState) (detections : List DetectionItem) (timestamp : ℚ) :
    List TrackedObject × List DetectionItem × List ℕ × List (Option ℕ) :=
  let vdets := validDetsOf detections
  let aged := st.tracks.map fun t => { t with missingFrames := t.missingFrames + 1 }
  matchTracks timestamp aged vdets (List.range vdets.length)

/-- Per pre-existing track: which detection index it claimed this frame. -/
def matchedJs (st : TrackerState) (detections : List DetectionItem) (timestamp : ℚ) :
    List (Option ℕ) :=
  (matchPhase st detections timestamp).2.2.2

/-- Write the processed valid detections back into the original list. -/
def scatter : List DetectionItem → List ℕ → List DetectionItem → List DetectionItem
  | dets, i :: is, v :: vs => scatter (dets.set i v) is vs
  | dets, _, _ => dets

/-- Step 3 of `update`: create tracks for the unclaimed valid detections
left by the matching phase. -/
def createPhase (st : TrackerState) (detections : List DetectionItem) (timestamp : ℚ) :
    ℕ × List TrackedObject × List DetectionItem :=
  createTracks timestamp st.nextId (matchPhase st detections timestamp).2.2.1
    (matchPhase st detections timestamp).2.1

/-- The tracks created in this frame, in creation order. -/
def createdTracks (st : TrackerState) (detections : List DetectionItem)
    (timestamp : ℚ) : List TrackedObject :=
  (createPhase st detections timestamp).2.1

/-- `ObjectTracker.update`: filter, age, match, create, violations, evict,
and return the annotated detection list. -/
def update (st : TrackerState) (detections : List DetectionItem) (timestamp : ℚ) :
    TrackerState × List DetectionItem :=
  let m := matchPhase st detections timestamp
  let c := createPhase st detections timestamp
  let allTracks := m.1 ++ c.2.1
  let v := checkViolations allTracks c.2.2
  let finalTracks := v.1.filter fun t => decide (t.missingFrames ≤ maxMissingFrames)
  (⟨finalTracks, c.1⟩, scatter detections (validIdxOf detections) v.2)

/-- `ObjectTracker.reset`. -/
def reset (_st : TrackerState) : TrackerState := ⟨[], 1⟩

/-- A fresh engine (`tracks = []`, `nextId = 1`). -/
def initialState : TrackerState := ⟨[], 1⟩

end ObjectTracker

open ObjectTracker

/-!
## Specification-side definitions

These follow the wording of the specification (not the source) and are
used for the refinement-style claims: the code-side definitions above
must agree with them.
-/

/-- The IoU helper as the spec words it: intersection from clamped
axis overlaps, union as `areaA + areaB − intersection`, IoU
`intersection/union`, defined as 0 when the union is 0. -/
def specIoU (A B : Box) : ℚ :=
  let inter := max 0 (min A.ymax B.ymax - max A.ymin B.ymin) *
               max 0 (min A.xmax B.xmax - max A.xmin B.xmin)
  let areaA := (A.ymax - A.ymin) * (A.xmax - A.xmin)
  let areaB := (B.ymax - B.ymin) * (B.xmax - B.xmin)
  if areaA + areaB - inter = 0 then 0 else inter / (areaA + areaB - inter)

/-- The motion-filter step as §4.2 of the spec words it: predict
`y_pred = y + v·dt`, `v_pred = v`, covariance by actual matrix algebra
`F·P·Fᵗ + Q` with `F = [[1,dt],[0,1]]` and `Q = diag(Q_pos·dt, Q_vel·dt)`;
then innovation `z − y_pred`, `S = p11_pred + R`, gains
`K1 = p11_pred/S`, `K2 = p21_pred/S`, state update, and covariance
`(I − K·H)·P_pred` with `H = [1, 0]`. -/
def kalmanSpecStep (state : KalmanState) (z dt : ℚ) : KalmanState :=
  let F : Matrix (Fin 2) (Fin 2) ℚ := !![1, dt; 0, 1]
  let P : Matrix (Fin 2) (Fin 2) ℚ := !![state.p11, state.p12; state.p21, state.p22]
  let Q : Matrix (Fin 2) (Fin 2) ℚ := !![Q_pos * dt, 0; 0, Q_vel * dt]
  let Ppred := F * P * F.transpose + Q
  let y_pred := state.y + state.v * dt
  let v_pred := state.v
  let y_innov := z - y_pred
  let S := Ppred 0 0 + R
  let K1 := Ppred 0 0 / S
  let K2 := Ppred 1 0 / S
  let K : Matrix (Fin 2) (Fin 1) ℚ := !![K1; K2]
  let H : Matrix (Fin 1) (Fin 2) ℚ := !![1, 0]
  let Pnew := (1 - K * H) * Ppred
  { y := y_pred + K1 * y_innov
    v := v_pred + K2 * y_innov
    p11 := Pnew 0 0
    p12 := Pnew 0 1
    p21 := Pnew 1 0
    p22 := Pnew 1 1 }

/-- **C3.** One step of the per-track motion filter on measurement `z`
over time step `dt` computes exactly the spec's predict/update equations:
prediction `y + v·dt`, covariance `F·P·Fᵗ + Q` with `Q_pos = 0.001` and
`Q_vel = 0.8` scaled by `dt`, innovation covariance `S = p11_pred + R`
with `R = 0.005`, gains `K1 = p11_pred/S`, `K2 = p21_pred/S`, and
covariance `(I − K·H)·P_pred`. -/
theorem updateKalman_matches_spec (state : KalmanState) (z dt : ℚ) :
    updateKalman state z dt = kalmanSpecStep state z dt := by
  simp only [updateKalman, kalmanSpecStep, Matrix.add_apply, Matrix.mul_apply,
    Matrix.sub_apply, Matrix.one_apply, Matrix.transpose_apply, Fin.sum_univ_two,
    Fin.sum_univ_one, Matrix.cons_val_zero, Matrix.cons_val_one, Matrix.head_cons,
    Matrix.head_fin_const, Matrix.of_apply, Matrix.cons_val_fin_one, Fin.isValue,
    KalmanState.mk.injEq]
  simp only [Fin.isValue, one_ne_zero, zero_ne_one, if_true, if_false, ite_true, ite_false,
    show ((0 : Fin 2) = 1) = False by simp, show ((1 : Fin 2) = 0) = False by simp]
  refine ⟨?_, ?_, ?_, ?_, ?_, ?_⟩ <;> ring

/-- **C8.** The IoU helper computes the spec's formula (intersection from
clamped overlaps, union `areaA + areaB − intersection`, 0 when the union
is 0), is symmetric, gives 1.0 on a box against itself and 0.0 on
disjoint boxes. -/
theorem calculateIoU_correct :
    (∀ A B, calculateIoU A B = specIoU A B) ∧
    (∀ A B, calculateIoU A B = calculateIoU B A) ∧
    calculateIoU ⟨0, 0, 500, 500⟩ ⟨0, 0, 500, 500⟩ = 1 ∧
    calculateIoU ⟨0, 0, 100, 100⟩ ⟨900, 900, 1000, 1000⟩ = 0 := by
  refine ⟨?_, ?_, ?_, ?_⟩
  · intro A B
    simp only [calculateIoU, specIoU]
    rw [mul_comm (max 0 (min A.xmax B.xmax - max A.xmin B.xmin))]
  · intro A B
    simp only [calculateIoU]
    rw [min_comm A.ymax, max_comm A.ymin, min_comm A.xmax, max_comm A.xmin,
      add_comm ((A.ymax - A.ymin) * (A.xmax - A.xmin))]
  · norm_num [calculateIoU]
  · norm_num [calculateIoU]



/-!
## C1: greedy, track-ordered association
-/

/-- `tryIoU` when the IoU candidate is accepted. -/
theorem tryIoU_pos {iou : ℚ} {st : ScanState} (idx : ℕ)
    (h1 : iouThreshold < iou) (h2 : gtIoU iou st.bestScore = true) :
    tryIoU iou idx st = ⟨some idx, .iouScore iou⟩ := by
  simp [tryIoU, h1, h2]

/-- `tryIoU` when the IoU candidate is rejected. -/
theorem tryIoU_neg {iou : ℚ} {st : ScanState} (idx : ℕ)
    (h : ¬ (iouThreshold < iou ∧ gtIoU iou st.bestScore = true)) :
    tryIoU iou idx st = st := by
  unfold tryIoU
  rw [if_neg]
  simpa using h

/-- `tryDist` is a no-op as soon as any candidate has been selected. -/
theorem tryDist_some {st : ScanState} {i : ℕ} (h : st.bestIdx = some i)
    (sq : ℚ) (idx : ℕ) : tryDist sq idx st = st := by
  obtain ⟨bi, bs⟩ := st
  replace h : bi = some i := h
  subst h
  rfl

/-- `tryDist` with no candidate selected yet is the source's guarded update. -/
theorem tryDist_none {st : ScanState} (h : st.bestIdx = none) (sq : ℚ) (idx : ℕ) :
    tryDist sq idx st =
      if (decide (sq < centroidDistanceThreshold ^ 2) && gtDist sq st.bestScore) = true
      then ⟨some idx, .distScore sq⟩ else st := by
  obtain ⟨bi, bs⟩ := st
  replace h : bi = none := h
  subst h
  rfl

/-- A claimed (or box-less) detection is skipped. -/
theorem scanStep_skip {um : List ℕ} {p : ℕ × DetectionItem}
    (h : um.contains p.1 = false) (track : TrackedObject) (st : ScanState) :
    scanStep track um st p = st := by
  unfold scanStep
  rw [if_pos]
  simpa using h

/-- An unclaimed detection with a box goes through IoU then distance. -/
theorem scanStep_box {um : List ℕ} {p : ℕ × DetectionItem} {b : Box}
    (h2 : um.contains p.1 = true) (hb : p.2.box_2d = some b)
    (track : TrackedObject) (st : ScanState) :
    scanStep track um st p =
      tryDist (sqDist track b) p.1 (tryIoU (calculateIoU track.box b) p.1 st) := by
  unfold scanStep
  rw [hb, if_neg (by simpa using h2)]

/-- `tryIoU` leaves `bestIdx` alone or sets it to the offered index. -/
theorem tryIoU_bestIdx (iou : ℚ) (idx : ℕ) (st : ScanState) :
    (tryIoU iou idx st).bestIdx = st.bestIdx ∨ (tryIoU iou idx st).bestIdx = some idx := by
  by_cases h : iouThreshold < iou ∧ gtIoU iou st.bestScore = true
  · rw [tryIoU_pos idx h.1 h.2]
    exact Or.inr rfl
  · rw [tryIoU_neg idx h]
    exact Or.inl rfl

/-- `tryDist` leaves `bestIdx` alone or sets it to the offered index. -/
theorem tryDist_bestIdx (sq : ℚ) (idx : ℕ) (st : ScanState) :
    (tryDist sq idx st).bestIdx = st.bestIdx ∨ (tryDist sq idx st).bestIdx = some idx := by
  rcases h : st.bestIdx with _ | i
  · rw [tryDist_none h]
    split
    · exact Or.inr rfl
    · exact Or.inl h
  · rw [tryDist_some h]
    exact Or.inl h

/-- One scan step only ever selects an index that is still unclaimed. -/
theorem scanStep_mem_invariant (track : TrackedObject) (um : List ℕ)
    (st : ScanState) (p : ℕ × DetectionItem)
    (h : ∀ j, st.bestIdx = some j → j ∈ um) :
    ∀ j, (scanStep track um st p).bestIdx = some j → j ∈ um := by
  intro j hj
  rcases hc : um.contains p.1 with _ | _
  · rw [scanStep_skip hc] at hj
    exact h j hj
  · have hpmem : p.1 ∈ um := by simpa using hc
    rcases hb : p.2.box_2d with _ | b
    · unfold scanStep at hj
      rw [hb, if_neg (by simpa using hc)] at hj
      exact h j hj
    · rw [scanStep_box hc hb] at hj
      rcases tryDist_bestIdx (sqDist track b) p.1
          (tryIoU (calculateIoU track.box b) p.1 st) with h2 | h2
      · rw [h2] at hj
        rcases tryIoU_bestIdx (calculateIoU track.box b) p.1 st with h1 | h1
        · rw [h1] at hj
          exact h j hj
        · rw [h1] at hj
          injection hj with hj
          subst hj
          exact hpmem
      · rw [h2] at hj
        injection hj with hj
        subst hj
        exact hpmem

/-- The whole inner loop only ever claims a still-unclaimed index. -/
theorem scanDets_mem (track : TrackedObject) (um : List ℕ)
    (vdets : List DetectionItem) (j : ℕ) (h : scanDets track um vdets = some j) :
    j ∈ um := by
  unfold scanDets at h
  suffices hgen : ∀ (l : List (ℕ × DetectionItem)) (st : ScanState),
      (∀ k, st.bestIdx = some k → k ∈ um) →
      ∀ k, (l.foldl (scanStep track um) st).bestIdx = some k → k ∈ um by
    exact hgen (withIdx 0 vdets) ⟨none, .noScore⟩ (by intro k hk; cases hk) j h
  intro l
  induction l with
  | nil => intro st hst k hk; exact hst k hk
  | cons p rest ih =>
    intro st hst k hk
    exact ih (scanStep track um st p) (scanStep_mem_invariant track um st p hst) k hk

/-- Once any candidate is selected, a later distance candidate never
displaces it: the step either keeps the state unchanged or replaces the
selection by a strictly better IoU candidate. -/
theorem scanStep_keeps_candidate (track : TrackedObject) (um : List ℕ)
    (st : ScanState) (p : ℕ × DetectionItem) (i : ℕ) (h : st.bestIdx = some i) :
    scanStep track um st p = st ∨
    ∃ q, scanStep track um st p = ⟨some p.1, .iouScore q⟩ ∧ iouThreshold < q ∧
         gtIoU q st.bestScore = true := by
  rcases hc : um.contains p.1 with _ | _
  · exact Or.inl (scanStep_skip hc track st)
  · rcases hb : p.2.box_2d with _ | b
    · left
      unfold scanStep
      rw [hb, if_neg (by simpa using hc)]
    · rw [scanStep_box hc hb]
      by_cases hg : iouThreshold < calculateIoU track.box b ∧
          gtIoU (calculateIoU track.box b) st.bestScore = true
      · rw [tryIoU_pos p.1 hg.1 hg.2, tryDist_some rfl]
        exact Or.inr ⟨calculateIoU track.box b, rfl, hg.1, hg.2⟩
      · rw [tryIoU_neg p.1 hg, tryDist_some h]
        exact Or.inl rfl

/-- A pure IoU-versus-distance duel: with a distance candidate already
selected, a later IoU candidate above the threshold wins exactly when the
source's score comparison `iou > bestScore` favours it. -/
theorem scanStep_iou_after_dist (track : TrackedObject) (um : List ℕ)
    (p : ℕ × DetectionItem) (b : Box) (i : ℕ) (sq : ℚ)
    (hb : p.2.box_2d = some b) (hum : um.contains p.1 = true)
    (hiou : iouThreshold < calculateIoU track.box b) :
    scanStep track um ⟨some i, .distScore sq⟩ p =
      if gtIoU (calculateIoU track.box b) (.distScore sq) = true then
        ⟨some p.1, .iouScore (calculateIoU track.box b)⟩
      else ⟨some i, .distScore sq⟩ := by
  rw [scanStep_box hum hb]
  by_cases hg : gtIoU (calculateIoU track.box b) (Score.distScore sq) = true
  · rw [if_pos hg, tryIoU_pos p.1 hiou hg, tryDist_some rfl]
  · rw [if_neg hg, tryIoU_neg p.1 (by intro hand; exact hg hand.2), tryDist_some rfl]

/-- Across one frame's matching pass, the claimed detection indices are
pairwise distinct and all drawn from the unclaimed set: a claimed
detection is removed from candidacy for all subsequent tracks. -/
theorem matchTracks_claims (ts : ℚ) :
    ∀ (tracks : List TrackedObject) (vdets : List DetectionItem) (um : List ℕ),
      um.Nodup →
      ((matchTracks ts tracks vdets um).2.2.2.filterMap id).Nodup ∧
      ∀ j ∈ (matchTracks ts tracks vdets um).2.2.2.filterMap id, j ∈ um := by
  intro tracks
  induction tracks with
  | nil =>
    intro vdets um hn
    constructor
    · simp [matchTracks]
    · intro j hj
      simp [matchTracks] at hj
  | cons t rest ih =>
    intro vdets um hn
    unfold matchTracks
    rcases hscan : scanDets t um vdets with _ | j
    · simp only [List.filterMap_cons_none]
      exact ih vdets um hn
    · simp only [List.filterMap_cons_some, Option.some.injEq, id_eq]
      have hjum : j ∈ um := scanDets_mem t um vdets j hscan
      obtain ⟨ihnd, ihmem⟩ := ih
        (vdets.set j (annotate (vdets.getD j default)
          (applyMatch t (vdets.getD j default) ts)))
        (um.erase j) (hn.erase j)
      refine ⟨List.nodup_cons.mpr ⟨?_, ihnd⟩, ?_⟩
      · intro hjmem
        have := ihmem j hjmem
        rw [hn.mem_erase_iff] at this
        exact this.1 rfl
      · intro k hk
        rcases List.mem_cons.mp hk with hk | hk
        · exact hk ▸ hjum
        · exact List.mem_of_mem_erase (ihmem k hk)

/-- The track of the C1 scenario: created from a detection with box
`[0,0,100,100]` (centroid `(0.05, 0.05)`), then aged by one frame. -/
def c1Track : TrackedObject :=
  { newTrack 1 { object := "car", type := "vehicle", box_2d := some ⟨0, 0, 100, 100⟩ }
      ⟨0, 0, 100, 100⟩ 0 with missingFrames := 1 }

/-- Detection 0: touches the track box (IoU 0) but its centroid
`(0.05, 0.15)` is at distance 0.1 from the track's, score 0.45. -/
def c1DetA : DetectionItem :=
  { object := "car", type := "vehicle", box_2d := some ⟨100, 0, 200, 100⟩ }

/-- Detection 1: overlaps the track box with IoU 0.4, above the 0.25
threshold. -/
def c1DetB : DetectionItem :=
  { object := "car", type := "vehicle", box_2d := some ⟨0, 0, 100, 40⟩ }

/-- **C1 (counterexample).** The claim says an IoU candidate considered
after a distance candidate always wins regardless of the numeric scores.
Here detection 0 is adopted as a distance candidate (score 0.45), and
detection 1, considered after it, is an IoU candidate (IoU 0.4 > 0.25);
since 0.4 is not above 0.45, the source's `iou > bestScore` test fails
and the track keeps the distance candidate: the inner loop claims index
0, not index 1. -/
theorem c1_counterexample :
    scanDets c1Track [0, 1] [c1DetA, c1DetB] = some 0 ∧
    iouThreshold < calculateIoU c1Track.box ⟨0, 0, 100, 40⟩ ∧
    calculateIoU c1Track.box ⟨100, 0, 200, 100⟩ = 0 := by
  refine ⟨?_, by norm_num [c1Track, newTrack, calculateIoU, iouThreshold, min_def, max_def],
    by norm_num [c1Track, newTrack, calculateIoU, min_def, max_def]⟩
  norm_num [scanDets, withIdx, scanStep, tryIoU, tryDist, sqDist, gtIoU, gtDist,
    calculateIoU, getCentroid, c1Track, newTrack, c1DetA, c1DetB, iouThreshold,
    centroidDistanceThreshold, min_def, max_def]

/-- **C1 (amended).** Association is greedy and track-ordered: each live
track claims at most one not-yet-claimed detection (the inner loop
returns at most one index, drawn from the unclaimed set), a claimed
detection is removed from candidacy for all subsequent tracks in the
frame (the claimed indices of one pass are pairwise distinct), and a
distance candidate never displaces a selected candidate (once anything
is selected the distance fallback is skipped entirely).  However, an IoU
candidate considered after a distance candidate wins **only** when its
IoU exceeds the distance candidate's score `(1 − distance) × 0.5`
(the source's `iou > bestScore` test, `gtIoU`), not unconditionally. -/
theorem c1_association_amended :
    (∀ track um vdets j, scanDets track um vdets = some j → j ∈ um) ∧
    (∀ track um st p i, st.bestIdx = some i →
       scanStep track um st p = st ∨
       ∃ q, scanStep track um st p = ⟨some p.1, .iouScore q⟩ ∧ iouThreshold < q ∧
            gtIoU q st.bestScore = true) ∧
    (∀ track um p b i sq, p.2.box_2d = some b → um.contains p.1 = true →
       iouThreshold < calculateIoU track.box b →
       scanStep track um ⟨some i, .distScore sq⟩ p =
         if gtIoU (calculateIoU track.box b) (.distScore sq) = true then
           ⟨some p.1, .iouScore (calculateIoU track.box b)⟩
         else ⟨some i, .distScore sq⟩) ∧
    (∀ ts tracks vdets um, um.Nodup →
       ((matchTracks ts tracks vdets um).2.2.2.filterMap id).Nodup ∧
       ∀ j ∈ (matchTracks ts tracks vdets um).2.2.2.filterMap id, j ∈ um) :=
  ⟨fun track um vdets j h => scanDets_mem track um vdets j h,
   fun track um st p i h => scanStep_keeps_candidate track um st p i h,
   fun track um p b i sq hb hum hiou => scanStep_iou_after_dist track um p b i sq hb hum hiou,
   fun ts tracks vdets um hn => matchTracks_claims ts tracks vdets um hn⟩

/-- Witness for the C1 theorem at concrete inputs. -/
theorem c1_association_amended_witness :
    ((0 : ℕ) ∈ [0, 1]) ∧
    (scanStep c1Track [0, 1] ⟨some 0, .iouScore (1/2)⟩ (1, c1DetA) = ⟨some 0, .iouScore (1/2)⟩ ∨
      ∃ q, scanStep c1Track [0, 1] ⟨some 0, .iouScore (1/2)⟩ (1, c1DetA) =
            ⟨some 1, .iouScore q⟩ ∧ iouThreshold < q ∧
            gtIoU q (Score.iouScore (1/2)) = true) ∧
    (scanStep c1Track [0, 1] ⟨some 0, .distScore (1/100)⟩ (1, c1DetB) =
       if gtIoU (calculateIoU c1Track.box ⟨0, 0, 100, 40⟩) (.distScore (1/100)) = true then
         ⟨some 1, .iouScore (calculateIoU c1Track.box ⟨0, 0, 100, 40⟩)⟩
       else ⟨some 0, .distScore (1/100)⟩) ∧
    (((matchTracks 0 [] [] [0]).2.2.2.filterMap id).Nodup ∧
      ∀ j ∈ (matchTracks 0 [] [] [0]).2.2.2.filterMap id, j ∈ [0]) :=
  ⟨c1_association_amended.1 c1Track [0, 1] [c1DetA, c1DetB] 0
      (by norm_num [scanDets, withIdx, scanStep, tryIoU, tryDist, sqDist, gtIoU, gtDist,
        calculateIoU, getCentroid, c1Track, newTrack, c1DetA, c1DetB, iouThreshold,
        centroidDistanceThreshold, min_def, max_def]),
   c1_association_amended.2.1 c1Track [0, 1] ⟨some 0, .iouScore (1/2)⟩ (1, c1DetA) 0 rfl,
   c1_association_amended.2.2.1 c1Track [0, 1] (1, c1DetB) ⟨0, 0, 100, 40⟩ 0 (1/100) rfl rfl
      (by norm_num [c1Track, newTrack, calculateIoU, iouThreshold, min_def, max_def]),
   c1_association_amended.2.2.2 0 [] [] [0] (by decide)⟩

/-!
## C4, C5, C10: violation hysteresis
-/

/-- `violationApply` only touches the two violation counters. -/
theorem violationApply_fields (flow : ℚ) (t : TrackedObject) :
    (violationApply flow t).1.speed = t.speed ∧
    (violationApply flow t).1.velocity = t.velocity ∧
    (violationApply flow t).1.cls = t.cls ∧
    (violationApply flow t).1.id = t.id ∧
    (violationApply flow t).1.missingFrames = t.missingFrames := by
  simp only [violationApply]
  split_ifs <;> simp

/-- Over the class limit: the speeding counter increments. -/
theorem violationApply_speeding_inc (flow : ℚ) (t : TrackedObject)
    (h : speedLimitFor t.cls < t.speed) :
    (violationApply flow t).1.speedingFrames = t.speedingFrames + 1 := by
  simp only [violationApply]
  split_ifs <;> simp_all

/-- At or under the class limit: the speeding counter decrements,
floored at 0 (truncated `ℕ` subtraction). -/
theorem violationApply_speeding_dec (flow : ℚ) (t : TrackedObject)
    (h : ¬ speedLimitFor t.cls < t.speed) :
    (violationApply flow t).1.speedingFrames = t.speedingFrames - 1 := by
  simp only [violationApply]
  split_ifs <;> simp_all

/-- The speeding flag is raised exactly when the updated counter has
reached 3. -/
theorem violationApply_sFlag (flow : ℚ) (t : TrackedObject) :
    (violationApply flow t).2.1 = decide (3 ≤ (violationApply flow t).1.speedingFrames) := by
  simp only [violationApply]
  split_ifs <;> simp

/-- Under the wrong-way guard, an opposing track's counter increments. -/
theorem violationApply_ww_inc (flow : ℚ) (t : TrackedObject)
    (hg : 10 < |flow| ∧ 10 < t.speed) (hop : signQ t.velocity ≠ signQ flow) :
    (violationApply flow t).1.wrongWayFrames = t.wrongWayFrames + 1 := by
  simp only [violationApply]
  split_ifs <;> simp_all

/-- Under the wrong-way guard, a non-opposing track's counter resets to 0. -/
theorem violationApply_ww_reset (flow : ℚ) (t : TrackedObject)
    (hg : 10 < |flow| ∧ 10 < t.speed) (hop : ¬ signQ t.velocity ≠ signQ flow) :
    (violationApply flow t).1.wrongWayFrames = 0 := by
  simp only [violationApply]
  split_ifs <;> simp_all

/-- When the guard fails the wrong-way counter is left unchanged. -/
theorem violationApply_ww_skip (flow : ℚ) (t : TrackedObject)
    (hg : ¬ (10 < |flow| ∧ 10 < t.speed)) :
    (violationApply flow t).1.wrongWayFrames = t.wrongWayFrames := by
  simp only [violationApply]
  split_ifs <;> simp_all

/-- The wrong-way flag is raised exactly when the updated counter has
reached 4 — the flag check sits outside the guard. -/
theorem violationApply_wFlag (flow : ℚ) (t : TrackedObject) :
    (violationApply flow t).2.2 = decide (4 ≤ (violationApply flow t).1.wrongWayFrames) := by
  simp only [violationApply]

/-- Compact builder for concrete tracks used in scenario theorems. -/
def mkTrack (i : ℕ) (c : String) (sp : ℤ) (vel : ℚ) (ww sf : ℕ) : TrackedObject :=
  { id := i, cls := c, box := ⟨0, 0, 100, 100⟩, centroid := (0.05, 0.05), avgHeight := 0.1,
    laneHistory := [0.05], speedHistory := [0], missingFrames := 0, speed := sp,
    velocity := vel, laneStatus := .stable, createdAt := 0, updatedAt := 0,
    wrongWayFrames := ww, speedingFrames := sf, kalman := initKalman 0.05 }

/-- **C4.** The speeding counter increments in each frame the displayed
speed exceeds the class limit and otherwise decrements floored at 0 (it
is not reset); the flag is emitted exactly when the updated counter has
reached 3; a vehicle over its limit for exactly 2 consecutive frames is
not flagged, and at 3 consecutive frames it is flagged. -/
theorem c4_speeding_hysteresis :
    (∀ flow t, speedLimitFor t.cls < t.speed →
       (violationApply flow t).1.speedingFrames = t.speedingFrames + 1) ∧
    (∀ flow t, ¬ speedLimitFor t.cls < t.speed →
       (violationApply flow t).1.speedingFrames = t.speedingFrames - 1) ∧
    (∀ flow t, (violationApply flow t).2.1 =
       decide (3 ≤ (violationApply flow t).1.speedingFrames)) ∧
    (∀ flow t, t.speedingFrames = 0 → speedLimitFor t.cls < t.speed →
       (violationApply flow ((violationApply flow t).1)).2.1 = false ∧
       (violationApply flow ((violationApply flow ((violationApply flow t).1)).1)).2.1
         = true) := by
  refine ⟨violationApply_speeding_inc, violationApply_speeding_dec,
    violationApply_sFlag, ?_⟩
  intro flow t h0 hlim
  have f1 := violationApply_fields flow t
  have hlim1 : speedLimitFor (violationApply flow t).1.cls <
      (violationApply flow t).1.speed := by
    rw [f1.2.2.1, f1.1]
    exact hlim
  have c1 : (violationApply flow t).1.speedingFrames = 1 := by
    rw [violationApply_speeding_inc flow t hlim, h0]
  have f2 := violationApply_fields flow (violationApply flow t).1
  have hlim2 : speedLimitFor (violationApply flow (violationApply flow t).1).1.cls <
      (violationApply flow (violationApply flow t).1).1.speed := by
    rw [f2.2.2.1, f2.1]
    exact hlim1
  have c2 : (violationApply flow (violationApply flow t).1).1.speedingFrames = 2 := by
    rw [violationApply_speeding_inc flow _ hlim1, c1]
  refine ⟨?_, ?_⟩
  · rw [violationApply_sFlag flow _, c2]
    rfl
  · have c3 : (violationApply flow
        (violationApply flow (violationApply flow t).1).1).1.speedingFrames = 3 := by
      rw [violationApply_speeding_inc flow _ hlim2, c2]
    rw [violationApply_sFlag flow _, c3]
    rfl

/-- Witness for C4 on a car at 100 km/h (limit 80) and a stationary car. -/
theorem c4_speeding_hysteresis_witness :
    (speedLimitFor (mkTrack 1 "car" 100 100 0 0).cls < (mkTrack 1 "car" 100 100 0 0).speed) ∧
    ((violationApply 0 (mkTrack 1 "car" 100 100 0 0)).1.speedingFrames =
      (mkTrack 1 "car" 100 100 0 0).speedingFrames + 1) ∧
    ((violationApply 0 (mkTrack 1 "car" 0 0 0 5)).1.speedingFrames =
      (mkTrack 1 "car" 0 0 0 5).speedingFrames - 1) ∧
    ((violationApply 0 (mkTrack 1 "car" 100 100 0 0)).2.1 =
      decide (3 ≤ (violationApply 0 (mkTrack 1 "car" 100 100 0 0)).1.speedingFrames)) ∧
    ((violationApply 0 ((violationApply 0 (mkTrack 1 "car" 100 100 0 0)).1)).2.1 = false ∧
     (violationApply 0 ((violationApply 0
       ((violationApply 0 (mkTrack 1 "car" 100 100 0 0)).1)).1)).2.1 = true) :=
  ⟨by decide,
   c4_speeding_hysteresis.1 0 (mkTrack 1 "car" 100 100 0 0) (by decide),
   c4_speeding_hysteresis.2.1 0 (mkTrack 1 "car" 0 0 0 5) (by decide),
   c4_speeding_hysteresis.2.2.1 0 (mkTrack 1 "car" 100 100 0 0),
   c4_speeding_hysteresis.2.2.2 0 (mkTrack 1 "car" 100 100 0 0) rfl (by decide)⟩

/-- One guarded opposing frame: the counter increments and the guard and
opposition are preserved (the violation pass does not change speed,
velocity, or class). -/
theorem violationApply_ww_stepAll (flow : ℚ) (t : TrackedObject)
    (hg : 10 < |flow| ∧ 10 < t.speed) (hop : signQ t.velocity ≠ signQ flow) :
    (violationApply flow t).1.wrongWayFrames = t.wrongWayFrames + 1 ∧
    (10 < |flow| ∧ 10 < (violationApply flow t).1.speed) ∧
    signQ (violationApply flow t).1.velocity ≠ signQ flow := by
  have hf := violationApply_fields flow t
  refine ⟨violationApply_ww_inc flow t hg hop, ⟨hg.1, ?_⟩, ?_⟩
  · rw [hf.1]
    exact hg.2
  · rw [hf.2.1]
    exact hop

/-- **C5.** Under the wrong-way guard (dominant flow magnitude > 10 and
displayed speed > 10), the counter increments on opposing frames and
resets to 0 otherwise, the flag is emitted exactly when the updated
counter has reached 4, and a track opposing the flow from counter 0 is
flagged on the 4th consecutive opposing frame, not the 3rd. -/
theorem c5_wrong_way_hysteresis :
    (∀ flow t, 10 < |flow| ∧ 10 < t.speed → signQ t.velocity ≠ signQ flow →
       (violationApply flow t).1.wrongWayFrames = t.wrongWayFrames + 1) ∧
    (∀ flow t, 10 < |flow| ∧ 10 < t.speed → ¬ signQ t.velocity ≠ signQ flow →
       (violationApply flow t).1.wrongWayFrames = 0) ∧
    (∀ flow t, (violationApply flow t).2.2 =
       decide (4 ≤ (violationApply flow t).1.wrongWayFrames)) ∧
    (∀ flow t, t.wrongWayFrames = 0 → 10 < |flow| ∧ 10 < t.speed →
       signQ t.velocity ≠ signQ flow →
       (violationApply flow ((violationApply flow ((violationApply flow t).1)).1)).2.2
         = false ∧
       (violationApply flow ((violationApply flow ((violationApply flow
         ((violationApply flow t).1)).1)).1)).2.2 = true) := by
  refine ⟨violationApply_ww_inc, violationApply_ww_reset, violationApply_wFlag, ?_⟩
  intro flow t h0 hg hop
  obtain ⟨c1, hg1, hop1⟩ := violationApply_ww_stepAll flow t hg hop
  obtain ⟨c2, hg2, hop2⟩ := violationApply_ww_stepAll flow _ hg1 hop1
  obtain ⟨c3, hg3, hop3⟩ := violationApply_ww_stepAll flow _ hg2 hop2
  obtain ⟨c4, _, _⟩ := violationApply_ww_stepAll flow _ hg3 hop3
  have n3 : (violationApply flow
      (violationApply flow (violationApply flow t).1).1).1.wrongWayFrames = 3 := by
    rw [c3, c2, c1, h0]
  refine ⟨?_, ?_⟩
  · rw [violationApply_wFlag flow _, n3]
    rfl
  · have n4 : (violationApply flow (violationApply flow
        (violationApply flow (violationApply flow t).1).1).1).1.wrongWayFrames = 4 := by
      rw [c4, n3]
    rw [violationApply_wFlag flow _, n4]
    rfl

/-- Witness for C5: flow +40 km/h, track at −20 km/h (speed 20). -/
theorem c5_wrong_way_hysteresis_witness :
    ((10 : ℚ) < |(40 : ℚ)| ∧ (10 : ℤ) < (mkTrack 1 "car" 20 (-20) 0 0).speed) ∧
    (signQ (mkTrack 1 "car" 20 (-20) 0 0).velocity ≠ signQ 40) ∧
    ((violationApply 40 (mkTrack 1 "car" 20 (-20) 0 0)).1.wrongWayFrames =
      (mkTrack 1 "car" 20 (-20) 0 0).wrongWayFrames + 1) ∧
    ((violationApply 40 (mkTrack 1 "car" 20 20 3 0)).1.wrongWayFrames = 0) ∧
    ((violationApply 40 (mkTrack 1 "car" 20 (-20) 0 0)).2.2 =
      decide (4 ≤ (violationApply 40 (mkTrack 1 "car" 20 (-20) 0 0)).1.wrongWayFrames)) ∧
    ((violationApply 40 ((violationApply 40 ((violationApply 40
        (mkTrack 1 "car" 20 (-20) 0 0)).1)).1)).2.2 = false ∧
     (violationApply 40 ((violationApply 40 ((violationApply 40 ((violationApply 40
        (mkTrack 1 "car" 20 (-20) 0 0)).1)).1)).1)).2.2 = true) :=
  ⟨⟨by decide, by decide⟩,
   by decide,
   c5_wrong_way_hysteresis.1 40 (mkTrack 1 "car" 20 (-20) 0 0) ⟨by decide, by decide⟩
     (by decide),
   c5_wrong_way_hysteresis.2.1 40 (mkTrack 1 "car" 20 20 3 0) ⟨by decide, by decide⟩
     (by decide),
   c5_wrong_way_hysteresis.2.2.1 40 (mkTrack 1 "car" 20 (-20) 0 0),
   c5_wrong_way_hysteresis.2.2.2 40 (mkTrack 1 "car" 20 (-20) 0 0) rfl
     ⟨by decide, by decide⟩ (by decide)⟩

/-- The detection bound to track 1 in the C10 scenario. -/
def c10Det : DetectionItem :=
  { object := "car", type := "vehicle", box_2d := some ⟨0, 0, 100, 100⟩, trackId := some 1 }

/-- A fast same-direction track (id 2) that makes the flow well-defined. -/
def c10Fast : TrackedObject := mkTrack 2 "car" 100 100 0 0

/-- A slower same-direction track (id 2) that leaves `|flow| ≤ 10`. -/
def c10Slow : TrackedObject := mkTrack 2 "car" 25 25 0 0

/-- Track 1 of the C10 scenario after `k` violation frames against
`c10Fast`: it moves at −20 km/h against a +100 km/h companion, so the
flow is +40 and its wrong-way counter increments every frame. -/
def c10After : ℕ → TrackedObject
  | 0 => mkTrack 1 "car" 20 (-20) 0 0
  | k + 1 => (checkViolations [c10After k, c10Fast] [c10Det]).1.getD 0 default

/-- One C10 frame: with the fast companion the flow is 40, the victim is
found by id and gets `violationApply 40` applied. -/
theorem c10_step (t : TrackedObject) (hid : t.id = 1) (hsp : t.speed = 20)
    (hv : t.velocity = -20) :
    (checkViolations [t, c10Fast] [c10Det]).1.getD 0 default =
      (violationApply 40 t).1 := by
  have hflow : flowDirOf [t, c10Fast] = 40 := by
    simp only [flowDirOf, c10Fast, mkTrack, List.filter, hsp, hv]
    norm_num [hv]
  simp only [checkViolations, hflow, violationGo, findAndApply, c10Det, hid]
  norm_num

/-- The C10 victim's identity, motion, and counter after `k` frames. -/
theorem c10_invariant : ∀ k, k ≤ 4 →
    (c10After k).id = 1 ∧ (c10After k).speed = 20 ∧
    (c10After k).velocity = -20 ∧ (c10After k).wrongWayFrames = k := by
  have step : ∀ n, (c10After n).id = 1 → (c10After n).speed = 20 →
      (c10After n).velocity = -20 →
      (c10After (n + 1)).id = 1 ∧ (c10After (n + 1)).speed = 20 ∧
      (c10After (n + 1)).velocity = -20 ∧
      (c10After (n + 1)).wrongWayFrames = (c10After n).wrongWayFrames + 1 := by
    intro n hid hsp hv
    have he : c10After (n + 1) = (violationApply 40 (c10After n)).1 :=
      c10_step (c10After n) hid hsp hv
    have hf := violationApply_fields 40 (c10After n)
    have hg : (10 : ℚ) < |(40 : ℚ)| ∧ 10 < (c10After n).speed := by
      refine ⟨by decide, ?_⟩
      rw [hsp]
      decide
    have hop : signQ (c10After n).velocity ≠ signQ 40 := by
      rw [hv]
      decide
    refine ⟨?_, ?_, ?_, ?_⟩
    · rw [he, hf.2.2.2.1, hid]
    · rw [he, hf.1, hsp]
    · rw [he, hf.2.1, hv]
    · rw [he, violationApply_ww_inc 40 (c10After n) hg hop]
  intro k _
  induction k with
  | zero => exact ⟨rfl, rfl, rfl, rfl⟩
  | succ n ih =>
    obtain ⟨hid, hsp, hv, hc⟩ := ih (by omega)
    obtain ⟨a, b, c, d⟩ := step n hid hsp hv
    exact ⟨a, b, c, by rw [d, hc]⟩

/-- **C10.** When the wrong-way guard fails (flow magnitude ≤ 10 —
including the undefined-flow value 0 — or displayed speed ≤ 10) the
wrong-way counter is left unchanged, not reset, and the flag is still
emitted whenever the counter had already reached 4; concretely, after 4
opposing frames under a +40 flow, a 5th frame whose flow is only 2.5
(no well-defined dominant flow) still emits the wrong-way flag. -/
theorem c10_wrong_way_guard_failure :
    (∀ flow t, ¬ (10 < |flow| ∧ 10 < t.speed) →
       (violationApply flow t).1.wrongWayFrames = t.wrongWayFrames ∧
       (violationApply flow t).2.2 = decide (4 ≤ t.wrongWayFrames)) ∧
    ((c10After 4).wrongWayFrames = 4 ∧
     |flowDirOf [c10After 4, c10Slow]| ≤ 10 ∧
     ((checkViolations [c10After 4, c10Slow] [c10Det]).2.getD 0 default).isWrongWay
       = true) := by
  have h4 := c10_invariant 4 (by omega)
  have hflow5 : flowDirOf [c10After 4, c10Slow] = 5 / 2 := by
    simp only [flowDirOf, c10Slow, mkTrack, List.filter, h4.2.1, h4.2.2.1]
    norm_num [h4.2.2.1]
  constructor
  · intro flow t hg
    refine ⟨violationApply_ww_skip flow t hg, ?_⟩
    rw [violationApply_wFlag flow t, violationApply_ww_skip flow t hg]
  · refine ⟨h4.2.2.2, ?_, ?_⟩
    · rw [hflow5, abs_of_pos (by norm_num : (0 : ℚ) < 5 / 2)]
      norm_num
    · have hguard : ¬ ((10 : ℚ) < |(5 / 2 : ℚ)| ∧ (10 : ℤ) < (c10After 4).speed) := by
        intro h
        have h1 := h.1
        rw [abs_of_pos (by norm_num : (0 : ℚ) < 5 / 2)] at h1
        norm_num at h1
      have hflag := violationApply_wFlag (5 / 2) (c10After 4)
      rw [violationApply_ww_skip (5 / 2) (c10After 4) hguard, h4.2.2.2] at hflag
      simp only [checkViolations, hflow5, violationGo, findAndApply, c10Det, h4.1]
      simp [hflag]

/-- Witness for the C10 guard-failure law at flow 0 (undefined flow). -/
theorem c10_wrong_way_guard_failure_witness :
    (¬ ((10 : ℚ) < |(0 : ℚ)| ∧ (10 : ℤ) < (mkTrack 1 "car" 20 (-20) 4 0).speed)) ∧
    ((violationApply 0 (mkTrack 1 "car" 20 (-20) 4 0)).1.wrongWayFrames =
       (mkTrack 1 "car" 20 (-20) 4 0).wrongWayFrames ∧
     (violationApply 0 (mkTrack 1 "car" 20 (-20) 4 0)).2.2 =
       decide (4 ≤ (mkTrack 1 "car" 20 (-20) 4 0).wrongWayFrames)) :=
  ⟨by decide,
   c10_wrong_way_guard_failure.1 0 (mkTrack 1 "car" 20 (-20) 4 0) (by decide)⟩

/-!
## C2: calibrated speed pipeline
-/

/-- Raw speed in m/s as the claim words it:
`(|v| / max(avgHeight, 0.02)) × refLength × (1.2 + (1.0 − centroidY) × 0.8)`. -/
def specRawSpeedMps (v avgHeight refLength centroidY : ℚ) : ℚ :=
  (|v| / max avgHeight 0.02) * refLength * (1.2 + (1 - centroidY) * 0.8)

/-- The km/h sample pushed into the history: the raw m/s speed, zeroed
below 0.8 m/s, times 3.6. -/
def specSample (raw : ℚ) : ℚ := (if raw < 0.8 then 0 else raw) * 3.6

/-- Push into a 20-sample-bounded buffer (FIFO eviction). -/
def specPush20 (hist : List ℚ) (s : ℚ) : List ℚ :=
  if 20 < (hist ++ [s]).length then (hist ++ [s]).drop 1 else hist ++ [s]

/-- Displayed speed before flooring: mean of the most recent 5 samples
(or fewer if the history is shorter). -/
def specDisplayed (hist : List ℚ) : ℚ := meanQ (lastN 5 hist)

/-- A bounded buffer stays bounded under the push. -/
theorem specPush20_length (hist : List ℚ) (s : ℚ) (h : hist.length ≤ 20) :
    (specPush20 hist s).length ≤ 20 := by
  unfold specPush20
  split
  · simp
    omega
  next h2 =>
    simp only [List.length_append, List.length_cons, List.length_nil] at h2 ⊢
    omega

/-- **C2 (amended).** For a matched track, the raw m/s speed is exactly
`(|v| / max(avgHeight, 0.02)) × refLength × (1.2 + (1.0 − centroidY) × 0.8)`
with `v` the filter's updated velocity and `avgHeight` the freshly
smoothed height, it is zeroed below 0.8 m/s, converted to km/h by ×3.6
and pushed into the 20-sample-bounded history; the displayed speed is the
mean of the most recent 5 samples floored to an integer.  The signed
velocity, however, is the **unfloored** mean times the sign of the raw
filter velocity — not the floored displayed magnitude. -/
theorem c2_speed_pipeline_amended (track : TrackedObject) (det : DetectionItem)
    (ts : ℚ) (b : Box) (hb : det.box_2d = some b) :
    (applyMatch track det ts).speedHistory =
      specPush20 track.speedHistory
        (specSample (specRawSpeedMps (applyMatch track det ts).kalman.v
          (track.avgHeight * 0.9 + (b.ymax - b.ymin) / 1000 * 0.1)
          (getReferenceLength track.cls) ((getCentroid b).2))) ∧
    (track.speedHistory.length ≤ 20 → (applyMatch track det ts).speedHistory.length ≤ 20) ∧
    (applyMatch track det ts).speed =
      ⌊specDisplayed ((applyMatch track det ts).speedHistory)⌋ ∧
    (applyMatch track det ts).velocity =
      specDisplayed ((applyMatch track det ts).speedHistory) *
        signQ (applyMatch track det ts).kalman.v := by
  refine ⟨?_, ?_, ?_, ?_⟩
  · simp only [applyMatch, hb, Option.getD_some, specPush20, specSample, specRawSpeedMps]
  · intro h
    have heq : (applyMatch track det ts).speedHistory =
        specPush20 track.speedHistory
          (specSample (specRawSpeedMps (applyMatch track det ts).kalman.v
            (track.avgHeight * 0.9 + (b.ymax - b.ymin) / 1000 * 0.1)
            (getReferenceLength track.cls) ((getCentroid b).2))) := by
      simp only [applyMatch, hb, Option.getD_some, specPush20, specSample, specRawSpeedMps]
    rw [heq]
    exact specPush20_length _ _ h
  · simp only [applyMatch, hb, Option.getD_some, specDisplayed]
  · simp only [applyMatch, hb, Option.getD_some, specDisplayed]

/-- Reference length of a car is 4.5 m. -/
theorem getReferenceLength_car : getReferenceLength "car" = 4.5 := rfl

/-- The C2 track: created from a car detection with box `[100,100,200,200]`
at `t = 0` (centroid `(0.15, 0.15)`, height 0.1). -/
def c2Track : TrackedObject :=
  newTrack 1 { object := "car", type := "vehicle", box_2d := some ⟨100, 100, 200, 200⟩ }
    ⟨100, 100, 200, 200⟩ 0

/-- The C2 matched detection one second later, moved down 100/1000 units. -/
def c2Det : DetectionItem :=
  { object := "car", type := "vehicle", box_2d := some ⟨200, 100, 300, 200⟩ }

/-- **C2 (counterexample).** The claim says the signed velocity is the
displayed speed magnitude (the floored mean, here 7) with the filter's
sign (+1), i.e. 7.  The code instead assigns the unfloored mean: the
velocity is 7290/1003 ≈ 7.268, which differs from
`displayed speed × sign`. -/
theorem c2_counterexample :
    (applyMatch c2Track c2Det 1000).speed = 7 ∧
    (applyMatch c2Track c2Det 1000).velocity = 7290 / 1003 ∧
    signQ ((applyMatch c2Track c2Det 1000).kalman.v) = 1 ∧
    (applyMatch c2Track c2Det 1000).velocity ≠
      ((applyMatch c2Track c2Det 1000).speed : ℚ) *
        signQ ((applyMatch c2Track c2Det 1000).kalman.v) := by
  have hv : (applyMatch c2Track c2Det 1000).kalman.v = 50 / 1003 := by
    norm_num [applyMatch, c2Track, c2Det, newTrack, initKalman, updateKalman,
      getCentroid, Q_pos, Q_vel, R]
  have hhist : (applyMatch c2Track c2Det 1000).speedHistory = [0, 14580 / 1003] := by
    norm_num [applyMatch, c2Track, c2Det, newTrack, initKalman, updateKalman,
      getCentroid, getReferenceLength_car, Q_pos, Q_vel, R, signQ, meanQ, lastN,
      abs_of_pos]
  have hvel : (applyMatch c2Track c2Det 1000).velocity = 7290 / 1003 := by
    norm_num [applyMatch, c2Track, c2Det, newTrack, initKalman, updateKalman,
      getCentroid, getReferenceLength_car, Q_pos, Q_vel, R, signQ, meanQ, lastN,
      abs_of_pos]
  have hsp : (applyMatch c2Track c2Det 1000).speed = 7 := by
    norm_num [applyMatch, c2Track, c2Det, newTrack, initKalman, updateKalman,
      getCentroid, getReferenceLength_car, Q_pos, Q_vel, R, signQ, meanQ, lastN,
      abs_of_pos]
  refine ⟨hsp, hvel, ?_, ?_⟩
  · rw [hv]
    norm_num [signQ]
  · rw [hvel, hsp, hv]
    norm_num [signQ]

/-- Witness for the C2 theorem at the concrete matched frame. -/
theorem c2_speed_pipeline_amended_witness :
    (c2Det.box_2d = some ⟨200, 100, 300, 200⟩) ∧
    ((applyMatch c2Track c2Det 1000).speedHistory =
      specPush20 c2Track.speedHistory
        (specSample (specRawSpeedMps (applyMatch c2Track c2Det 1000).kalman.v
          (c2Track.avgHeight * 0.9 + (((300 : ℚ)) - 200) / 1000 * 0.1)
          (getReferenceLength c2Track.cls) ((getCentroid ⟨200, 100, 300, 200⟩).2))) ∧
    (c2Track.speedHistory.length ≤ 20 →
      (applyMatch c2Track c2Det 1000).speedHistory.length ≤ 20) ∧
    (applyMatch c2Track c2Det 1000).speed =
      ⌊specDisplayed ((applyMatch c2Track c2Det 1000).speedHistory)⌋ ∧
    (applyMatch c2Track c2Det 1000).velocity =
      specDisplayed ((applyMatch c2Track c2Det 1000).speedHistory) *
        signQ (applyMatch c2Track c2Det 1000).kalman.v) :=
  ⟨rfl, c2_speed_pipeline_amended c2Track c2Det 1000 ⟨200, 100, 300, 200⟩ rfl⟩

/-!
## List infrastructure for C6, C7, C9
-/

/-- The identity-carrying core of a detection: the fields the engine
never writes. -/
def detCore (d : DetectionItem) : String × String × Option Box :=
  (d.object, d.type, d.box_2d)

/-- `annotate` only writes tracking fields. -/
theorem annotate_core (d : DetectionItem) (t : TrackedObject) :
    detCore (annotate d t) = detCore d := rfl

/-- Setting an entry whose core matches the old entry's core preserves
every position's core. -/
theorem core_getD_set :
    ∀ (l : List DetectionItem) (j k : ℕ) (v : DetectionItem),
      detCore v = detCore (l.getD j default) →
      detCore ((l.set j v).getD k default) = detCore (l.getD k default) := by
  intro l
  induction l with
  | nil => intro j k v _; rfl
  | cons a rest ih =>
    intro j k v hc
    cases j with
    | zero =>
      cases k with
      | zero => exact hc
      | succ k' => rfl
    | succ j' =>
      cases k with
      | zero => rfl
      | succ k' => exact ih j' k' v hc

/-- Setting away from `m` leaves position `m` unchanged. -/
theorem getD_set_ne {α : Type _} [Inhabited α] :
    ∀ (l : List α) (i m : ℕ) (v : α), i ≠ m →
      (l.set i v).getD m default = l.getD m default := by
  intro l
  induction l with
  | nil => intro i m v _; rfl
  | cons a rest ih =>
    intro i m v hne
    cases i with
    | zero =>
      cases m with
      | zero => exact absurd rfl hne
      | succ m' => rfl
    | succ i' =>
      cases m with
      | zero => rfl
      | succ m' => exact ih i' m' v (by omega)

/-- `getD` through a `map`, inside the length. -/
theorem getD_map {α β : Type _} [Inhabited α] [Inhabited β] (f : α → β) :
    ∀ (l : List α) (k : ℕ), k < l.length →
      (l.map f).getD k default = f (l.getD k default) := by
  intro l
  induction l with
  | nil => intro k hk; simp at hk
  | cons a rest ih =>
    intro k hk
    cases k with
    | zero => rfl
    | succ k' => exact ih k' (by simpa using hk)

/-- A `getD` inside the length is a member. -/
theorem getD_mem {α : Type _} [Inhabited α] :
    ∀ (l : List α) (k : ℕ), k < l.length → l.getD k default ∈ l := by
  intro l
  induction l with
  | nil => intro k hk; simp at hk
  | cons a rest ih =>
    intro k hk
    cases k with
    | zero => exact List.mem_cons_self a rest
    | succ k' => exact List.mem_cons_of_mem a (ih k' (by simpa using hk))

/-- Every member shows up at some position. -/
theorem mem_exists_getD {α : Type _} [Inhabited α] :
    ∀ (l : List α) (a : α), a ∈ l → ∃ k, k < l.length ∧ l.getD k default = a := by
  intro l
  induction l with
  | nil => intro a ha; simp at ha
  | cons b rest ih =>
    intro a ha
    rcases List.mem_cons.mp ha with rfl | ha
    · exact ⟨0, by simp, rfl⟩
    · obtain ⟨k, hk, he⟩ := ih a ha
      exact ⟨k + 1, by simpa using hk, he⟩

/-- `getD` on an append, left side. -/
theorem getD_append_left {α : Type _} [Inhabited α] :
    ∀ (l₁ l₂ : List α) (k : ℕ), k < l₁.length →
      (l₁ ++ l₂).getD k default = l₁.getD k default := by
  intro l₁
  induction l₁ with
  | nil => intro l₂ k hk; simp at hk
  | cons a rest ih =>
    intro l₂ k hk
    cases k with
    | zero => rfl
    | succ k' => exact ih l₂ k' (by simpa using hk)

/-- `getD` on an append, right side. -/
theorem getD_append_right {α : Type _} [Inhabited α] :
    ∀ (l₁ l₂ : List α) (k : ℕ), l₁.length ≤ k →
      (l₁ ++ l₂).getD k default = l₂.getD (k - l₁.length) default := by
  intro l₁
  induction l₁ with
  | nil => intro l₂ k _; rfl
  | cons a rest ih =>
    intro l₂ k hk
    cases k with
    | zero => simp at hk
    | succ k' =>
      have := ih l₂ k' (by simpa using hk)
      simpa using this

/-- `scatter` preserves the length. -/
theorem scatter_length :
    ∀ (idxs : List ℕ) (vals dets : List DetectionItem),
      (scatter dets idxs vals).length = dets.length := by
  intro idxs
  induction idxs with
  | nil => intro vals dets; cases vals <;> rfl
  | cons i is ih =>
    intro vals dets
    cases vals with
    | nil => rfl
    | cons v vs =>
      show (scatter (dets.set i v) is vs).length = dets.length
      rw [ih vs (dets.set i v), List.length_set]

/-- `scatter` with core-matching values preserves every position's core. -/
theorem scatter_core :
    ∀ (idxs : List ℕ) (vals dets : List DetectionItem),
      (∀ k, k < idxs.length → k < vals.length →
        detCore (vals.getD k default) = detCore (dets.getD (idxs.getD k 0) default)) →
      ∀ m, detCore ((scatter dets idxs vals).getD m default) =
        detCore (dets.getD m default) := by
  intro idxs
  induction idxs with
  | nil => intro vals dets _ m; cases vals <;> rfl
  | cons i is ih =>
    intro vals dets h m
    cases vals with
    | nil => rfl
    | cons v vs =>
      show detCore ((scatter (dets.set i v) is vs).getD m default) = _
      have hv : detCore v = detCore (dets.getD i default) := h 0 (by simp) (by simp)
      have hpt : ∀ p, detCore ((dets.set i v).getD p default) =
          detCore (dets.getD p default) := fun p => core_getD_set dets i p v hv
      rw [ih vs (dets.set i v) ?_ m, hpt m]
      intro k hk1 hk2
      rw [hpt (is.getD k 0)]
      exact h (k + 1) (by simpa using hk1) (by simpa using hk2)

/-- `scatter` leaves positions outside the index list untouched. -/
theorem scatter_skip :
    ∀ (idxs : List ℕ) (vals dets : List DetectionItem) (m : ℕ),
      (∀ k, k < idxs.length → idxs.getD k 0 ≠ m) →
      (scatter dets idxs vals).getD m default = dets.getD m default := by
  intro idxs
  induction idxs with
  | nil => intro vals dets m _; cases vals <;> rfl
  | cons i is ih =>
    intro vals dets m h
    cases vals with
    | nil => rfl
    | cons v vs =>
      show (scatter (dets.set i v) is vs).getD m default = _
      rw [ih vs (dets.set i v) m (fun k hk => h (k + 1) (by simpa using hk)),
        getD_set_ne dets i m v (h 0 (by simp))]

/-- Every entry of `validEnum n l` carries its own source position and a
valid detection. -/
theorem validEnum_mem :
    ∀ (l : List DetectionItem) (n : ℕ) (pr : ℕ × DetectionItem),
      pr ∈ validEnum n l →
      n ≤ pr.1 ∧ pr.1 - n < l.length ∧ l.getD (pr.1 - n) default = pr.2 ∧
        isValidDet pr.2 = true := by
  intro l
  induction l with
  | nil => intro n pr hpr; simp [validEnum] at hpr
  | cons d rest ih =>
    intro n pr hpr
    unfold validEnum at hpr
    by_cases hv : isValidDet d
    · rw [if_pos hv] at hpr
      rcases List.mem_cons.mp hpr with rfl | hpr
      · exact ⟨le_refl n, by simp, by simp, hv⟩
      · obtain ⟨h1, h2, h3, h4⟩ := ih (n + 1) pr hpr
        refine ⟨by omega, by simp; omega, ?_, h4⟩
        have hsub : pr.1 - n = (pr.1 - (n + 1)) + 1 := by omega
        rw [hsub]
        exact h3
    · rw [if_neg hv] at hpr
      obtain ⟨h1, h2, h3, h4⟩ := ih (n + 1) pr hpr
      refine ⟨by omega, by simp; omega, ?_, h4⟩
      have hsub : pr.1 - n = (pr.1 - (n + 1)) + 1 := by omega
      rw [hsub]
      exact h3

/-- `applyMatch` resets `missingFrames` and keeps the identity. -/
theorem applyMatch_fields (t : TrackedObject) (det : DetectionItem) (ts : ℚ) :
    (applyMatch t det ts).id = t.id ∧ (applyMatch t det ts).missingFrames = 0 := by
  simp [applyMatch]

/-- The matching pass: output tracks and per-track claims are aligned
with the input tracks, a matched track keeps its id with
`missingFrames = 0`, and an unmatched track is returned untouched. -/
theorem matchTracks_pointwise (ts : ℚ) :
    ∀ (tracks : List TrackedObject) (vdets : List DetectionItem) (um : List ℕ),
      (matchTracks ts tracks vdets um).1.length = tracks.length ∧
      (matchTracks ts tracks vdets um).2.2.2.length = tracks.length ∧
      ∀ k, k < tracks.length →
        ((((matchTracks ts tracks vdets um).2.2.2.getD k none).isSome = true →
           ((matchTracks ts tracks vdets um).1.getD k default).id =
             (tracks.getD k default).id ∧
           ((matchTracks ts tracks vdets um).1.getD k default).missingFrames = 0) ∧
         (((matchTracks ts tracks vdets um).2.2.2.getD k none).isSome = false →
           (matchTracks ts tracks vdets um).1.getD k default =
             tracks.getD k default)) := by
  intro tracks
  induction tracks with
  | nil =>
    intro vdets um
    refine ⟨rfl, rfl, ?_⟩
    intro k hk
    simp at hk
  | cons t rest ih =>
    intro vdets um
    unfold matchTracks
    rcases hscan : scanDets t um vdets with _ | j
    · simp only
      obtain ⟨hl1, hl2, hpt⟩ := ih vdets um
      refine ⟨by simpa using hl1, by simpa using hl2, ?_⟩
      intro k hk
      cases k with
      | zero => exact ⟨fun hs => by simp at hs, fun _ => rfl⟩
      | succ k' => exact hpt k' (by simpa using hk)
    · simp only
      obtain ⟨hl1, hl2, hpt⟩ := ih
        (vdets.set j (annotate (vdets.getD j default)
          (applyMatch t (vdets.getD j default) ts))) (um.erase j)
      refine ⟨by simpa using hl1, by simpa using hl2, ?_⟩
      intro k hk
      cases k with
      | zero =>
        refine ⟨fun _ => ?_, fun hs => by simp at hs⟩
        exact applyMatch_fields t (vdets.getD j default) ts
      | succ k' => exact hpt k' (by simpa using hk)

/-- The matching pass never changes a detection's core fields. -/
theorem matchTracks_vdets_core (ts : ℚ) :
    ∀ (tracks : List TrackedObject) (vdets : List DetectionItem) (um : List ℕ),
      (matchTracks ts tracks vdets um).2.1.length = vdets.length ∧
      ∀ k, detCore ((matchTracks ts tracks vdets um).2.1.getD k default) =
        detCore (vdets.getD k default) := by
  intro tracks
  induction tracks with
  | nil => intro vdets um; exact ⟨rfl, fun k => rfl⟩
  | cons t rest ih =>
    intro vdets um
    unfold matchTracks
    rcases hscan : scanDets t um vdets with _ | j
    · simp only
      exact ih vdets um
    · simp only
      obtain ⟨hl, hpt⟩ := ih
        (vdets.set j (annotate (vdets.getD j default)
          (applyMatch t (vdets.getD j default) ts))) (um.erase j)
      constructor
      · rw [hl, List.length_set]
      · intro k
        rw [hpt k, core_getD_set vdets j k _ (annotate_core _ _)]

/-- Creation assigns exactly the consecutive identifiers
`nextId, nextId+1, …` (strictly increasing in creation order), and
returns the advanced counter. -/
theorem createTracks_ids (ts : ℚ) :
    ∀ (idxs : List ℕ) (nid : ℕ) (vdets : List DetectionItem),
      ∃ cnt, (createTracks ts nid idxs vdets).1 = nid + cnt ∧
        (createTracks ts nid idxs vdets).2.1.map (fun t => t.id) =
          List.range' nid cnt := by
  intro idxs
  induction idxs with
  | nil => intro nid vdets; exact ⟨0, rfl, rfl⟩
  | cons j rest ih =>
    intro nid vdets
    unfold createTracks
    rcases hb : (vdets.getD j default).box_2d with _ | b
    · simp only [hb]
      exact ih nid vdets
    · simp only [hb]
      obtain ⟨cnt, h1, h2⟩ := ih (nid + 1)
        (vdets.set j (createAnnotate (vdets.getD j default)
          (newTrack nid (vdets.getD j default) b ts).id))
      refine ⟨cnt + 1, by rw [h1]; omega, ?_⟩
      simp only [List.map_cons, h2]
      show nid :: List.range' (nid + 1) cnt = List.range' nid (cnt + 1)
      rw [List.range'_succ]

/-- Creation never changes a detection's core fields and keeps the list
length. -/
theorem createTracks_vdets_core (ts : ℚ) :
    ∀ (idxs : List ℕ) (nid : ℕ) (vdets : List DetectionItem),
      (createTracks ts nid idxs vdets).2.2.length = vdets.length ∧
      ∀ k, detCore ((createTracks ts nid idxs vdets).2.2.getD k default) =
        detCore (vdets.getD k default) := by
  intro idxs
  induction idxs with
  | nil => intro nid vdets; exact ⟨rfl, fun k => rfl⟩
  | cons j rest ih =>
    intro nid vdets
    unfold createTracks
    rcases hb : (vdets.getD j default).box_2d with _ | b
    · simp only [hb]
      exact ih nid vdets
    · simp only [hb]
      obtain ⟨hl, hpt⟩ := ih (nid + 1)
        (vdets.set j (createAnnotate (vdets.getD j default)
          (newTrack nid (vdets.getD j default) b ts).id))
      constructor
      · rw [hl, List.length_set]
      · intro k
        rw [hpt k]
        exact core_getD_set vdets j k _ rfl

/-- `findAndApply` keeps the track list aligned: every position is either
untouched or has `violationApply` applied to it. -/
theorem findAndApply_pointwise (flow : ℚ) (tid : ℕ) :
    ∀ (tracks : List TrackedObject),
      (findAndApply flow tid tracks).1.length = tracks.length ∧
      ∀ k, (findAndApply flow tid tracks).1.getD k default = tracks.getD k default ∨
        (findAndApply flow tid tracks).1.getD k default =
          (violationApply flow (tracks.getD k default)).1 := by
  intro tracks
  induction tracks with
  | nil => exact ⟨rfl, fun k => Or.inl rfl⟩
  | cons t rest ih =>
    unfold findAndApply
    by_cases hid : t.id = tid
    · rw [if_pos hid]
      refine ⟨by simp, ?_⟩
      intro k
      cases k with
      | zero => exact Or.inr rfl
      | succ k' => exact Or.inl rfl
    · rw [if_neg hid]
      obtain ⟨hl, hpt⟩ := ih
      refine ⟨by simpa using hl, ?_⟩
      intro k
      cases k with
      | zero => exact Or.inl rfl
      | succ k' => exact hpt k'

/-- The violation pass preserves every track's id and `missingFrames`,
and the track-list length. -/
theorem violationGo_tracks_pointwise (flow : ℚ) :
    ∀ (dets : List DetectionItem) (tracks : List TrackedObject),
      (violationGo flow dets tracks).1.length = tracks.length ∧
      ∀ k, ((violationGo flow dets tracks).1.getD k default).id =
          (tracks.getD k default).id ∧
        ((violationGo flow dets tracks).1.getD k default).missingFrames =
          (tracks.getD k default).missingFrames := by
  intro dets
  induction dets with
  | nil => intro tracks; exact ⟨rfl, fun k => ⟨rfl, rfl⟩⟩
  | cons d rest ih =>
    intro tracks
    unfold violationGo
    by_cases h0 : d.trackId.getD 0 = 0
    · rw [if_pos h0]
      exact ih tracks
    · rw [if_neg h0]
      by_cases hf : (findAndApply flow (d.trackId.getD 0) tracks).2.1
      · rw [if_pos hf]
        obtain ⟨hl, hpt⟩ := ih (findAndApply flow (d.trackId.getD 0) tracks).1
        obtain ⟨hfl, hfpt⟩ := findAndApply_pointwise flow (d.trackId.getD 0) tracks
        refine ⟨by rw [hl, hfl], ?_⟩
        intro k
        obtain ⟨hid, hmiss⟩ := hpt k
        rcases hfpt k with he | he
        · rw [hid, hmiss, he]
          exact ⟨rfl, rfl⟩
        · rw [hid, hmiss, he]
          have hva := violationApply_fields flow (tracks.getD k default)
          exact ⟨hva.2.2.2.1, hva.2.2.2.2⟩
      · rw [if_neg hf]
        exact ih tracks

/-- The violation pass preserves every detection's core fields and the
detection-list length. -/
theorem violationGo_dets_core (flow : ℚ) :
    ∀ (dets : List DetectionItem) (tracks : List TrackedObject),
      (violationGo flow dets tracks).2.length = dets.length ∧
      ∀ k, detCore ((violationGo flow dets tracks).2.getD k default) =
        detCore (dets.getD k default) := by
  intro dets
  induction dets with
  | nil => intro tracks; exact ⟨rfl, fun k => rfl⟩
  | cons d rest ih =>
    intro tracks
    unfold violationGo
    by_cases h0 : d.trackId.getD 0 = 0
    · rw [if_pos h0]
      obtain ⟨hl, hpt⟩ := ih tracks
      refine ⟨by simpa using hl, ?_⟩
      intro k
      cases k with
      | zero => rfl
      | succ k' => exact hpt k'
    · rw [if_neg h0]
      by_cases hf : (findAndApply flow (d.trackId.getD 0) tracks).2.1
      · rw [if_pos hf]
        obtain ⟨hl, hpt⟩ := ih (findAndApply flow (d.trackId.getD 0) tracks).1
        refine ⟨by simpa using hl, ?_⟩
        intro k
        cases k with
        | zero => rfl
        | succ k' => exact hpt k'
      · rw [if_neg hf]
        obtain ⟨hl, hpt⟩ := ih tracks
        refine ⟨by simpa using hl, ?_⟩
        intro k
        cases k with
        | zero => rfl
        | succ k' => exact hpt k'

/-!
## C6: framesMissing bookkeeping and eviction
-/

/-- The aged copy of the pre-frame tracks. -/
def agedOf (st : TrackerState) : List TrackedObject :=
  st.tracks.map fun t => { t with missingFrames := t.missingFrames + 1 }

/-- `update`'s live set, spelled through phases (definitional). -/
theorem update_tracks_eq (st : TrackerState) (dets : List DetectionItem) (ts : ℚ) :
    (update st dets ts).1.tracks =
      ((violationGo
          (flowDirOf ((matchPhase st dets ts).1 ++ (createPhase st dets ts).2.1))
          (createPhase st dets ts).2.2
          ((matchPhase st dets ts).1 ++ (createPhase st dets ts).2.1)).1).filter
        (fun t => decide (t.missingFrames ≤ maxMissingFrames)) := rfl

/-- The matching phase, spelled out (definitional). -/
theorem matchPhase_eq (st : TrackerState) (dets : List DetectionItem) (ts : ℚ) :
    matchPhase st dets ts =
      matchTracks ts (agedOf st) (validDetsOf dets)
        (List.range (validDetsOf dets).length) := rfl

/-- Position `i` of the post-violation track list keeps the id of the
`i`-th pre-frame track, with `missingFrames` equal to 0 when matched and
to the old value plus 1 when unmatched. -/
theorem update_track_at (st : TrackerState) (dets : List DetectionItem) (ts : ℚ)
    (i : ℕ) (hi : i < st.tracks.length) :
    let vtracks := (violationGo
        (flowDirOf ((matchPhase st dets ts).1 ++ (createPhase st dets ts).2.1))
        (createPhase st dets ts).2.2
        ((matchPhase st dets ts).1 ++ (createPhase st dets ts).2.1)).1
    i < vtracks.length ∧
    vtracks.length = (matchPhase st dets ts).1.length + (createdTracks st dets ts).length ∧
    (matchPhase st dets ts).1.length = st.tracks.length ∧
    (vtracks.getD i default).id = (st.tracks.getD i default).id ∧
    (vtracks.getD i default).missingFrames =
      (if ((matchedJs st dets ts).getD i none).isSome then 0
       else (st.tracks.getD i default).missingFrames + 1) := by
  intro vtracks
  obtain ⟨hl1, hl2, hpt⟩ := matchTracks_pointwise ts (agedOf st) (validDetsOf dets)
    (List.range (validDetsOf dets).length)
  have hlen_aged : (agedOf st).length = st.tracks.length := List.length_map _ _
  have hmlen : (matchPhase st dets ts).1.length = st.tracks.length := by
    rw [matchPhase_eq, hl1, hlen_aged]
  obtain ⟨hvl, hvpt⟩ := violationGo_tracks_pointwise
    (flowDirOf ((matchPhase st dets ts).1 ++ (createPhase st dets ts).2.1))
    ((createPhase st dets ts).2.2)
    ((matchPhase st dets ts).1 ++ (createPhase st dets ts).2.1)
  have hvlen : vtracks.length =
      (matchPhase st dets ts).1.length + (createdTracks st dets ts).length := by
    rw [show vtracks = (violationGo
        (flowDirOf ((matchPhase st dets ts).1 ++ (createPhase st dets ts).2.1))
        (createPhase st dets ts).2.2
        ((matchPhase st dets ts).1 ++ (createPhase st dets ts).2.1)).1 from rfl,
      hvl, List.length_append]
    rfl
  have hivt : i < vtracks.length := by
    rw [hvlen, hmlen]
    omega
  have happ : (((matchPhase st dets ts).1 ++ (createPhase st dets ts).2.1)).getD i default =
      (matchPhase st dets ts).1.getD i default :=
    getD_append_left _ _ i (by rw [hmlen]; exact hi)
  have hagedi : (agedOf st).getD i default =
      { st.tracks.getD i default with
        missingFrames := (st.tracks.getD i default).missingFrames + 1 } :=
    getD_map _ st.tracks i hi
  obtain ⟨hm_some, hm_none⟩ := hpt i (by rw [hlen_aged]; exact hi)
  have hvi := hvpt i
  rw [happ] at hvi
  refine ⟨hivt, hvlen, hmlen, ?_, ?_⟩
  · rw [hvi.1]
    rcases hs : ((matchedJs st dets ts).getD i none).isSome with _ | _
    · have hthis := hm_none hs
      rw [show (matchPhase st dets ts).1 = (matchTracks ts (agedOf st) (validDetsOf dets)
        (List.range (validDetsOf dets).length)).1 from rfl, hthis, hagedi]
    · have hthis := (hm_some hs).1
      rw [show (matchPhase st dets ts).1 = (matchTracks ts (agedOf st) (validDetsOf dets)
        (List.range (validDetsOf dets).length)).1 from rfl, hthis, hagedi]
  · rw [hvi.2]
    rcases hs : ((matchedJs st dets ts).getD i none).isSome with _ | _
    · have hthis := hm_none hs
      rw [if_neg Bool.false_ne_true]
      rw [show (matchPhase st dets ts).1 = (matchTracks ts (agedOf st) (validDetsOf dets)
        (List.range (validDetsOf dets).length)).1 from rfl, hthis, hagedi]
    · have hthis := (hm_some hs).2
      rw [if_pos rfl]
      rw [show (matchPhase st dets ts).1 = (matchTracks ts (agedOf st) (validDetsOf dets)
        (List.range (validDetsOf dets).length)).1 from rfl]
      exact hthis

/-- On a duplicate-free list, equal `getD` values force equal positions. -/
theorem nodup_getD_inj {α : Type _} [Inhabited α] (L : List α) (h : L.Nodup)
    {k i : ℕ} (hk : k < L.length) (hi : i < L.length)
    (he : L.getD k default = L.getD i default) : k = i := by
  rw [List.getD_eq_getElem?_getD, List.getElem?_eq_getElem hk,
    List.getD_eq_getElem?_getD, List.getElem?_eq_getElem hi] at he
  simp only [Option.getD_some] at he
  exact (List.Nodup.getElem_inj_iff h).mp he

/-- With duplicate-free ids, tracks at distinct positions have distinct ids. -/
theorem nodup_map_id_ne (l : List TrackedObject)
    (h : (l.map fun t => t.id).Nodup) {k i : ℕ}
    (hk : k < l.length) (hi : i < l.length) (hne : k ≠ i) :
    (l.getD k default).id ≠ (l.getD i default).id := by
  intro he
  apply hne
  have hk' : k < (l.map fun t => t.id).length := by simpa using hk
  have hi' : i < (l.map fun t => t.id).length := by simpa using hi
  refine nodup_getD_inj _ h hk' hi' ?_
  rw [getD_map _ l k hk, getD_map _ l i hi]
  exact he

/-- **C6.** After `update`, a pre-frame track that was matched survives
with `framesMissing = 0`; an unmatched one has `framesMissing` exactly
one greater than before, and survives iff that value is at most 5: after
5 consecutive misses it is still present, on the 6th it is removed (no
track with its id remains, given well-formed ids). -/
theorem c6_frames_missing (st : TrackerState) (dets : List DetectionItem) (ts : ℚ)
    (i : ℕ) (hi : i < st.tracks.length) :
    (((matchedJs st dets ts).getD i none).isSome = true →
       ∃ t' ∈ (update st dets ts).1.tracks,
         t'.id = (st.tracks.getD i default).id ∧ t'.missingFrames = 0) ∧
    (((matchedJs st dets ts).getD i none).isSome = false →
       (st.tracks.getD i default).missingFrames + 1 ≤ maxMissingFrames →
       ∃ t' ∈ (update st dets ts).1.tracks,
         t'.id = (st.tracks.getD i default).id ∧
         t'.missingFrames = (st.tracks.getD i default).missingFrames + 1) ∧
    (((matchedJs st dets ts).getD i none).isSome = false →
       maxMissingFrames < (st.tracks.getD i default).missingFrames + 1 →
       (st.tracks.map fun t => t.id).Nodup →
       (∀ t ∈ st.tracks, t.id < st.nextId) →
       ∀ t' ∈ (update st dets ts).1.tracks, t'.id ≠ (st.tracks.getD i default).id) := by
  obtain ⟨hivt, hvlen, hmlen, hid, hmiss⟩ := update_track_at st dets ts i hi
  rw [update_tracks_eq st dets ts]
  refine ⟨?_, ?_, ?_⟩
  · intro hs
    rw [hs, if_pos rfl] at hmiss
    exact ⟨_, List.mem_filter.mpr ⟨getD_mem _ i hivt, by rw [hmiss]; rfl⟩, hid, hmiss⟩
  · intro hs hle
    rw [hs, if_neg Bool.false_ne_true] at hmiss
    exact ⟨_, List.mem_filter.mpr ⟨getD_mem _ i hivt, by rw [hmiss]; exact decide_eq_true hle⟩,
      hid, hmiss⟩
  · intro hs hgt hnd hbound t' ht' heq
    rw [hs, if_neg Bool.false_ne_true] at hmiss
    obtain ⟨ht'mem, ht'pred⟩ := List.mem_filter.mp ht'
    obtain ⟨k, hk, hkEq⟩ := mem_exists_getD _ t' ht'mem
    by_cases hkm : k < st.tracks.length
    · obtain ⟨hivtk, _, _, hidk, hmissk⟩ := update_track_at st dets ts k hkm
      by_cases hki : k = i
      · subst hki
        rw [← hkEq, hmiss] at ht'pred
        have : (st.tracks.getD k default).missingFrames + 1 ≤ maxMissingFrames :=
          of_decide_eq_true ht'pred
        omega
      · have hne := nodup_map_id_ne st.tracks hnd hkm hi hki
        rw [← hkEq, hidk] at heq
        exact hne heq
    · push_neg at hkm
      obtain ⟨hvl, hvpt⟩ := violationGo_tracks_pointwise
        (flowDirOf ((matchPhase st dets ts).1 ++ (createPhase st dets ts).2.1))
        ((createPhase st dets ts).2.2)
        ((matchPhase st dets ts).1 ++ (createPhase st dets ts).2.1)
      have hkm' : (matchPhase st dets ts).1.length ≤ k := by rw [hmlen]; exact hkm
      have happk : (((matchPhase st dets ts).1 ++ (createPhase st dets ts).2.1)).getD k default
          = (createPhase st dets ts).2.1.getD (k - (matchPhase st dets ts).1.length) default :=
        getD_append_right _ _ k hkm'
      have hjlen : k - (matchPhase st dets ts).1.length < (createPhase st dets ts).2.1.length := by
        have := hk
        rw [hvlen] at this
        have hcl : (createdTracks st dets ts).length = (createPhase st dets ts).2.1.length := rfl
        omega
      obtain ⟨cnt, hcnt, hmap⟩ := createTracks_ids ts (matchPhase st dets ts).2.2.1
        st.nextId (matchPhase st dets ts).2.1
      have hcntlen : (createPhase st dets ts).2.1.length = cnt := by
        have h1 : ((createPhase st dets ts).2.1.map fun t => t.id).length =
            (List.range' st.nextId cnt).length := by
          rw [show (createPhase st dets ts).2.1 = (createTracks ts st.nextId
            (matchPhase st dets ts).2.2.1 (matchPhase st dets ts).2.1).2.1 from rfl, hmap]
        simpa using h1
      have hidval : ((createPhase st dets ts).2.1.getD
          (k - (matchPhase st dets ts).1.length) default).id ∈ List.range' st.nextId cnt := by
        have h2 : ((createPhase st dets ts).2.1.map fun t => t.id).getD
            (k - (matchPhase st dets ts).1.length) default =
            ((createPhase st dets ts).2.1.getD (k - (matchPhase st dets ts).1.length) default).id :=
          getD_map _ _ _ hjlen
        rw [show (createPhase st dets ts).2.1 = (createTracks ts st.nextId
          (matchPhase st dets ts).2.2.1 (matchPhase st dets ts).2.1).2.1 from rfl, hmap] at h2
        rw [show (createPhase st dets ts).2.1 = (createTracks ts st.nextId
          (matchPhase st dets ts).2.2.1 (matchPhase st dets ts).2.1).2.1 from rfl]
        rw [← h2]
        apply getD_mem
        simpa [hcntlen] using hjlen
      have hge : st.nextId ≤ ((createPhase st dets ts).2.1.getD
          (k - (matchPhase st dets ts).1.length) default).id :=
        (List.mem_range'_1.mp hidval).1
      have ht0 : (st.tracks.getD i default).id < st.nextId :=
        hbound _ (getD_mem _ i hi)
      have hidk2 := (hvpt k).1
      rw [happk] at hidk2
      rw [← hkEq, hidk2] at heq
      omega

/-- Witness for C6: one live track, an empty frame. -/
theorem c6_frames_missing_witness :
    (0 : ℕ) < (TrackerState.mk [mkTrack 1 "car" 0 0 0 0] 2).tracks.length ∧
    ((((matchedJs ⟨[mkTrack 1 "car" 0 0 0 0], 2⟩ [] 0).getD 0 none).isSome = true →
       ∃ t' ∈ (update ⟨[mkTrack 1 "car" 0 0 0 0], 2⟩ [] 0).1.tracks,
         t'.id = (([mkTrack 1 "car" 0 0 0 0] : List TrackedObject).getD 0 default).id ∧
         t'.missingFrames = 0) ∧
     (((matchedJs ⟨[mkTrack 1 "car" 0 0 0 0], 2⟩ [] 0).getD 0 none).isSome = false →
       (([mkTrack 1 "car" 0 0 0 0] : List TrackedObject).getD 0 default).missingFrames + 1 ≤
         maxMissingFrames →
       ∃ t' ∈ (update ⟨[mkTrack 1 "car" 0 0 0 0], 2⟩ [] 0).1.tracks,
         t'.id = (([mkTrack 1 "car" 0 0 0 0] : List TrackedObject).getD 0 default).id ∧
         t'.missingFrames =
           (([mkTrack 1 "car" 0 0 0 0] : List TrackedObject).getD 0 default).missingFrames + 1) ∧
     (((matchedJs ⟨[mkTrack 1 "car" 0 0 0 0], 2⟩ [] 0).getD 0 none).isSome = false →
       maxMissingFrames <
         (([mkTrack 1 "car" 0 0 0 0] : List TrackedObject).getD 0 default).missingFrames + 1 →
       (([mkTrack 1 "car" 0 0 0 0] : List TrackedObject).map fun t => t.id).Nodup →
       (∀ t ∈ ([mkTrack 1 "car" 0 0 0 0] : List TrackedObject),
         t.id < (TrackerState.mk [mkTrack 1 "car" 0 0 0 0] 2).nextId) →
       ∀ t' ∈ (update ⟨[mkTrack 1 "car" 0 0 0 0], 2⟩ [] 0).1.tracks,
         t'.id ≠ (([mkTrack 1 "car" 0 0 0 0] : List TrackedObject).getD 0 default).id)) :=
  ⟨by decide, c6_frames_missing ⟨[mkTrack 1 "car" 0 0 0 0], 2⟩ [] 0 0 (by decide)⟩


/-!
## C7: identifier monotonicity
-/

/-- The matching phase keeps one output track per input track. -/
theorem matchPhase_len (st : TrackerState) (dets : List DetectionItem) (ts : ℚ) :
    (matchPhase st dets ts).1.length = st.tracks.length := by
  rw [matchPhase_eq,
    (matchTracks_pointwise ts (agedOf st) (validDetsOf dets)
      (List.range (validDetsOf dets).length)).1]
  exact List.length_map _ _

/-- Length of the post-violation track list. -/
theorem violationTracks_len (st : TrackerState) (dets : List DetectionItem) (ts : ℚ) :
    (violationGo
        (flowDirOf ((matchPhase st dets ts).1 ++ (createPhase st dets ts).2.1))
        (createPhase st dets ts).2.2
        ((matchPhase st dets ts).1 ++ (createPhase st dets ts).2.1)).1.length =
      (matchPhase st dets ts).1.length + (createPhase st dets ts).2.1.length := by
  rw [(violationGo_tracks_pointwise _ _ _).1, List.length_append]

/-- Every live track after `update` either keeps a pre-frame track's id
(taken at its position) or carries a freshly allocated id in
`[nextId, nextId + cnt)` where the counter advanced by `cnt`. -/
theorem update_mem_tracks_cases (st : TrackerState) (dets : List DetectionItem)
    (ts : ℚ) (t' : TrackedObject) (ht' : t' ∈ (update st dets ts).1.tracks) :
    (∃ k, k < st.tracks.length ∧ t'.id = (st.tracks.getD k default).id) ∨
    (∃ cnt, (update st dets ts).1.nextId = st.nextId + cnt ∧
      st.nextId ≤ t'.id ∧ t'.id < st.nextId + cnt) := by
  rw [update_tracks_eq st dets ts] at ht'
  obtain ⟨ht'mem, _⟩ := List.mem_filter.mp ht'
  obtain ⟨k, hk, hkEq⟩ := mem_exists_getD _ t' ht'mem
  obtain ⟨cnt, hcnt, hmap⟩ := createTracks_ids ts (matchPhase st dets ts).2.2.1
    st.nextId (matchPhase st dets ts).2.1
  have hnext : (update st dets ts).1.nextId = st.nextId + cnt := hcnt
  obtain ⟨hvl, hvpt⟩ := violationGo_tracks_pointwise
    (flowDirOf ((matchPhase st dets ts).1 ++ (createPhase st dets ts).2.1))
    ((createPhase st dets ts).2.2)
    ((matchPhase st dets ts).1 ++ (createPhase st dets ts).2.1)
  by_cases hkm : k < st.tracks.length
  · obtain ⟨_, _, _, hidk, _⟩ := update_track_at st dets ts k hkm
    exact Or.inl ⟨k, hkm, by rw [← hkEq, hidk]⟩
  · push_neg at hkm
    have hmlen := matchPhase_len st dets ts
    have hkm' : (matchPhase st dets ts).1.length ≤ k := by omega
    have happk : (((matchPhase st dets ts).1 ++ (createPhase st dets ts).2.1)).getD k default
        = (createPhase st dets ts).2.1.getD (k - (matchPhase st dets ts).1.length) default :=
      getD_append_right _ _ k hkm'
    have hjlen : k - (matchPhase st dets ts).1.length < (createPhase st dets ts).2.1.length := by
      rw [violationTracks_len st dets ts] at hk
      omega
    have hcntlen : (createPhase st dets ts).2.1.length = cnt := by
      have h1 : ((createPhase st dets ts).2.1.map fun t => t.id).length =
          (List.range' st.nextId cnt).length := by
        rw [show (createPhase st dets ts).2.1 = (createTracks ts st.nextId
          (matchPhase st dets ts).2.2.1 (matchPhase st dets ts).2.1).2.1 from rfl, hmap]
      simpa using h1
    have hidval : ((createPhase st dets ts).2.1.getD
        (k - (matchPhase st dets ts).1.length) default).id ∈ List.range' st.nextId cnt := by
      have h2 : ((createPhase st dets ts).2.1.map fun t => t.id).getD
          (k - (matchPhase st dets ts).1.length) default =
          ((createPhase st dets ts).2.1.getD (k - (matchPhase st dets ts).1.length) default).id :=
        getD_map _ _ _ hjlen
      rw [show (createPhase st dets ts).2.1 = (createTracks ts st.nextId
        (matchPhase st dets ts).2.2.1 (matchPhase st dets ts).2.1).2.1 from rfl, hmap] at h2
      rw [show (createPhase st dets ts).2.1 = (createTracks ts st.nextId
        (matchPhase st dets ts).2.2.1 (matchPhase st dets ts).2.1).2.1 from rfl]
      rw [← h2]
      apply getD_mem
      simpa [hcntlen] using hjlen
    have hrange := List.mem_range'_1.mp hidval
    have hidk2 := (hvpt k).1
    rw [happk] at hidk2
    rw [← hkEq, hidk2]
    exact Or.inr ⟨cnt, hnext, hrange.1, hrange.2⟩

/-- **C7.** Track identifiers are assigned strictly increasingly in
creation order (the frame's new ids are exactly the consecutive block
`nextId, nextId+1, …`), no identifier is reused (surviving ids below the
old `nextId` are old tracks' ids, new ids are at least the old `nextId`,
and the counter never decreases), and after `reset()` the next created
track receives identifier 1. -/
theorem c7_id_monotonicity (st : TrackerState) (dets : List DetectionItem) (ts : ℚ) :
    (∃ cnt, (update st dets ts).1.nextId = st.nextId + cnt ∧
       (createdTracks st dets ts).map (fun t => t.id) = List.range' st.nextId cnt) ∧
    ((∀ t ∈ st.tracks, t.id < st.nextId) →
       ∀ t' ∈ (update st dets ts).1.tracks, t'.id < (update st dets ts).1.nextId) ∧
    ((∀ t ∈ st.tracks, t.id < st.nextId) →
       ∀ t' ∈ (update st dets ts).1.tracks, t'.id < st.nextId →
         t'.id ∈ st.tracks.map (fun t => t.id)) ∧
    reset st = ⟨[], 1⟩ ∧
    ((update (reset st)
        [{ object := "car", type := "vehicle", box_2d := some ⟨0, 0, 100, 100⟩ }]
        0).2.getD 0 default).trackId = some 1 := by
  obtain ⟨cnt, hcnt, hmap⟩ := createTracks_ids ts (matchPhase st dets ts).2.2.1
    st.nextId (matchPhase st dets ts).2.1
  refine ⟨⟨cnt, hcnt, hmap⟩, ?_, ?_, rfl,
    by rw [show reset st = (⟨[], 1⟩ : TrackerState) from rfl]; decide⟩
  · intro hbound t' ht'
    rcases update_mem_tracks_cases st dets ts t' ht' with ⟨k, hk, hid⟩ | ⟨c2, hn2, _, hlt⟩
    · have : (st.tracks.getD k default).id < st.nextId :=
        hbound _ (getD_mem _ k hk)
      have hnext : (update st dets ts).1.nextId = st.nextId + cnt := hcnt
      omega
    · rw [hn2]
      exact hlt
  · intro hbound t' ht' hlt
    rcases update_mem_tracks_cases st dets ts t' ht' with ⟨k, hk, hid⟩ | ⟨c2, _, hge, _⟩
    · rw [hid]
      exact List.mem_map.mpr ⟨_, getD_mem _ k hk, rfl⟩
    · omega

/-- Witness for C7: the id-bound hypothesis holds on a one-track state. -/
theorem c7_id_monotonicity_witness :
    (∀ t ∈ ([mkTrack 1 "car" 0 0 0 0] : List TrackedObject),
       t.id < (TrackerState.mk [mkTrack 1 "car" 0 0 0 0] 2).nextId) ∧
    (∀ t' ∈ (update ⟨[mkTrack 1 "car" 0 0 0 0], 2⟩ [] 0).1.tracks,
       t'.id < (update ⟨[mkTrack 1 "car" 0 0 0 0], 2⟩ [] 0).1.nextId) :=
  ⟨by decide, (c7_id_monotonicity ⟨[mkTrack 1 "car" 0 0 0 0], 2⟩ [] 0).2.1 (by decide)⟩

/-!
## C9: pass-through of the detection list
-/

/-- **C9.** `update` is a total function that returns a list of the same
length, never changes any detection's core fields (class label, type,
box), and returns box-less or non-vehicle detections completely
unmodified. -/
theorem c9_passthrough (st : TrackerState) (dets : List DetectionItem) (ts : ℚ)
    (k : ℕ) (hk : isValidDet (dets.getD k default) = false) :
    (update st dets ts).2.length = dets.length ∧
    (∀ m, detCore ((update st dets ts).2.getD m default) = detCore (dets.getD m default)) ∧
    (update st dets ts).2.getD k default = dets.getD k default := by
  have hveq : (update st dets ts).2 = scatter dets (validIdxOf dets)
      ((violationGo
        (flowDirOf ((matchPhase st dets ts).1 ++ (createPhase st dets ts).2.1))
        (createPhase st dets ts).2.2
        ((matchPhase st dets ts).1 ++ (createPhase st dets ts).2.1)).2) := rfl
  obtain ⟨hvdl, hvdc⟩ := violationGo_dets_core
    (flowDirOf ((matchPhase st dets ts).1 ++ (createPhase st dets ts).2.1))
    ((createPhase st dets ts).2.2)
    ((matchPhase st dets ts).1 ++ (createPhase st dets ts).2.1)
  obtain ⟨hcdl, hcdc⟩ := createTracks_vdets_core ts (matchPhase st dets ts).2.2.1
    st.nextId (matchPhase st dets ts).2.1
  obtain ⟨hmdl, hmdc⟩ := matchTracks_vdets_core ts (agedOf st) (validDetsOf dets)
    (List.range (validDetsOf dets).length)
  have hcore : ∀ j, detCore (((violationGo
      (flowDirOf ((matchPhase st dets ts).1 ++ (createPhase st dets ts).2.1))
      (createPhase st dets ts).2.2
      ((matchPhase st dets ts).1 ++ (createPhase st dets ts).2.1)).2).getD j default) =
      detCore ((validDetsOf dets).getD j default) := by
    intro j
    rw [hvdc j]
    rw [show (createPhase st dets ts).2.2 = (createTracks ts st.nextId
      (matchPhase st dets ts).2.2.1 (matchPhase st dets ts).2.1).2.2 from rfl, hcdc j]
    rw [show (matchPhase st dets ts).2.1 = (matchTracks ts (agedOf st) (validDetsOf dets)
      (List.range (validDetsOf dets).length)).2.1 from rfl, hmdc j]
  have hvel : (validIdxOf dets).length = (validEnum 0 dets).length := List.length_map _ _
  have hE1 : ∀ j, j < (validEnum 0 dets).length →
      (validDetsOf dets).getD j default = dets.getD ((validIdxOf dets).getD j 0) default ∧
      isValidDet ((validDetsOf dets).getD j default) = true := by
    intro j hj
    have hpr := validEnum_mem dets 0 ((validEnum 0 dets).getD j default) (getD_mem _ j hj)
    have hfst : (validIdxOf dets).getD j 0 = ((validEnum 0 dets).getD j default).1 := by
      show ((validEnum 0 dets).map fun p => p.1).getD j default =
        ((validEnum 0 dets).getD j default).1
      exact getD_map (fun p => p.1) _ j hj
    have hsnd : (validDetsOf dets).getD j default = ((validEnum 0 dets).getD j default).2 := by
      show ((validEnum 0 dets).map fun p => p.2).getD j default =
        ((validEnum 0 dets).getD j default).2
      exact getD_map (fun p => p.2) _ j hj
    refine ⟨?_, ?_⟩
    · rw [hsnd, hfst]
      have h3 := hpr.2.2.1
      rw [Nat.sub_zero] at h3
      exact h3.symm
    · rw [hsnd]
      exact hpr.2.2.2
  refine ⟨?_, ?_, ?_⟩
  · rw [hveq, scatter_length]
  · intro m
    rw [hveq]
    apply scatter_core
    intro j hj1 _
    have hj : j < (validEnum 0 dets).length := by rw [← hvel]; exact hj1
    rw [hcore j, (hE1 j hj).1]
  · rw [hveq]
    apply scatter_skip
    intro j hj1 heqk
    have hj : j < (validEnum 0 dets).length := by rw [← hvel]; exact hj1
    obtain ⟨he, hval⟩ := hE1 j hj
    rw [heqk] at he
    rw [← he] at hk
    rw [hval] at hk
    simp at hk

/-- Witness for C9: one valid vehicle and one box-less person detection. -/
theorem c9_passthrough_witness :
    (isValidDet (([{ object := "car", type := "vehicle", box_2d := some ⟨0, 0, 100, 100⟩ },
        { object := "person", type := "pedestrian", box_2d := none }] :
        List DetectionItem).getD 1 default) = false) ∧
    ((update initialState
        [{ object := "car", type := "vehicle", box_2d := some ⟨0, 0, 100, 100⟩ },
         { object := "person", type := "pedestrian", box_2d := none }] 0).2.length =
      ([{ object := "car", type := "vehicle", box_2d := some ⟨0, 0, 100, 100⟩ },
        { object := "person", type := "pedestrian", box_2d := none }] :
        List DetectionItem).length ∧
     (∀ m, detCore ((update initialState
        [{ object := "car", type := "vehicle", box_2d := some ⟨0, 0, 100, 100⟩ },
         { object := "person", type := "pedestrian", box_2d := none }] 0).2.getD m default) =
       detCore (([{ object := "car", type := "vehicle", box_2d := some ⟨0, 0, 100, 100⟩ },
         { object := "person", type := "pedestrian", box_2d := none }] :
         List DetectionItem).getD m default)) ∧
     (update initialState
        [{ object := "car", type := "vehicle", box_2d := some ⟨0, 0, 100, 100⟩ },
         { object := "person", type := "pedestrian", box_2d := none }] 0).2.getD 1 default =
       ([{ object := "car", type := "vehicle", box_2d := some ⟨0, 0, 100, 100⟩ },
         { object := "person", type := "pedestrian", box_2d := none }] :
         List DetectionItem).getD 1 default) :=
  ⟨by decide,
   c9_passthrough initialState
     [{ object := "car", type := "vehicle", box_2d := some ⟨0, 0, 100, 100⟩ },
      { object := "person", type := "pedestrian", box_2d := none }] 0 1 (by decide)⟩
